import Mathlib

/-!
# ARCamView: scale policy, gesture state machine and drag controller

A shallow embedding of `src/assets/view.js` (class `ARCamView`).

Numbers.  JavaScript numbers are idealised as exact rationals (`ℚ`): no
rounding, no overflow.  A statement proved here carries to the doubles of the
source where it does not hinge on rounding (order, clamping, which branch is
taken away from a boundary); an equality between two computed quotients or
products does not.  The rationals have no `Infinity` and no `NaN`, so a
division whose divisor is zero has no value in the model: every operation of
the source that divides returns an `Option`, and is `none` exactly when a
divisor is zero.

Library functions.  `Math.tan`, `Math.hypot`, `Math.PI` and the square root
behind `Vector3.length` are not rational functions; they are taken as
parameters, collected in `MathEnv`.  `THREE.MathUtils.clamp` (three.js r132) is
`Math.max(min, Math.min(max, value))` and is embedded as such, and so are
`Vector3.normalize`, `Matrix4.lookAt` and `Object3D.lookAt` of that release,
which decide the orientation a billboard call leaves.  The pose adapter
`applyPose` comes from `alva_ar_three.js` and is a parameter.

Timers.  `setTimeout` hands out fresh identifiers and keeps a table of pending
callbacks; `clearTimeout` removes one identifier from the table; the firing of
a pending callback is an event of the state machine.  Real time is abstracted:
a pending timer may fire at any later point of a trace.
-/

namespace ARTestWeb

/-! ## Numeric environment -/

/-- The numeric library functions the source calls and that are not rational
functions: `Math.PI`, `Math.tan`, `Math.hypot`, and `Math.sqrt` (used by
`THREE.Vector3.length`). -/
structure MathEnv where
  PI : ℚ
  tan : ℚ → ℚ
  sqrt : ℚ → ℚ
  hypot : ℚ → ℚ → ℚ

/-- JavaScript `a / b` on finite numbers: defined when the divisor is not zero
(otherwise the result is `Infinity` or `NaN`, outside the model). -/
def jsDiv (a b : ℚ) : Option ℚ :=
  if b = 0 then none else some (a / b)

/-- The function `THREE.MathUtils.clamp(value, min, max)` of three.js r132:
`Math.max(min, Math.min(max, value))`. -/
def clamp (value lo hi : ℚ) : ℚ :=
  max lo (min hi value)

/-! ## Data model -/

/-- A three-component vector (`THREE.Vector3`). -/
structure Vector3 where
  x : ℚ
  y : ℚ
  z : ℚ
  deriving DecidableEq

/-- The call `v.set(x, y, z)`. -/
def Vector3.set (_v : Vector3) (x y z : ℚ) : Vector3 :=
  ⟨x, y, z⟩

/-- The call `a.sub(b)`. -/
def Vector3.sub (a b : Vector3) : Vector3 :=
  ⟨a.x - b.x, a.y - b.y, a.z - b.z⟩

/-- The call `v.length()`: the square root of the sum of the squares. -/
def Vector3.length (M : MathEnv) (v : Vector3) : ℚ :=
  M.sqrt (v.x * v.x + v.y * v.y + v.z * v.z)

/-- The call `v.lengthSq()`. -/
def Vector3.lengthSq (v : Vector3) : ℚ :=
  v.x * v.x + v.y * v.y + v.z * v.z

/-- The call `v.normalize()` of three.js r132:
`this.divideScalar(this.length() || 1)`, where `divideScalar(s)` multiplies by
`1 / s`.  The divisor is never zero. -/
def Vector3.normalize (M : MathEnv) (v : Vector3) : Vector3 :=
  let l := v.length M
  let d := if l = 0 then 1 else l
  ⟨v.x * (1 / d), v.y * (1 / d), v.z * (1 / d)⟩

/-- The call `r.crossVectors(a, b)`. -/
def Vector3.cross (a b : Vector3) : Vector3 :=
  ⟨a.y * b.z - a.z * b.y, a.z * b.x - a.x * b.z, a.x * b.y - a.y * b.x⟩

/-- The call `a.dot(b)`. -/
def Vector3.dot (a b : Vector3) : ℚ :=
  a.x * b.x + a.y * b.y + a.z * b.z

/-- The three columns of a rotation matrix: the directions of the local X, Y
(up) and Z (forward) axes in world space. -/
structure RotationAxes where
  xAxis : Vector3
  yAxis : Vector3
  zAxis : Vector3
  deriving DecidableEq

/-- The method `THREE.Matrix4.lookAt(eye, target, up)` of three.js r132, as the
columns it writes: `z = eye - target` (replaced by `(0, 0, 1)`-direction when
zero), normalised; `x = up × z`, and when that is zero (`up` and `z` parallel)
`z` is nudged by `0.0001` and both are recomputed; `x` normalised; `y = z × x`. -/
def Matrix4.lookAt (M : MathEnv) (eye target up : Vector3) : RotationAxes :=
  let z0 := eye.sub target
  let z1 := if z0.lengthSq = 0 then { z0 with z := 1 } else z0
  let z2 := z1.normalize M
  let x0 := up.cross z2
  let z3 :=
    if x0.lengthSq = 0 then
      (if |up.z| = 1 then { z2 with x := z2.x + 1 / 10000 }
        else { z2 with z := z2.z + 1 / 10000 }).normalize M
    else z2
  let x1 := if x0.lengthSq = 0 then up.cross z3 else x0
  let x2 := x1.normalize M
  ⟨x2, z3.cross x2, z3⟩

/-- The part of `this.object` (a `THREE.Mesh`) that the controller reads and
writes.  The orientation is recorded as the point the object was last turned
to by `lookAt`. -/
structure Object3D where
  scale : Vector3
  position : Vector3
  visible : Bool
  lookAtTarget : Option Vector3
  deriving DecidableEq

/-- The rotation `object.lookAt(target)` gives a mesh at its current position
(three.js r132, `THREE.Object3D.lookAt` for an object that is neither camera nor
light): `Matrix4.lookAt(target, position, up)` with the default `up = (0, 1, 0)`,
which the source never changes.  The parent of the object is the scene, which
the source never moves or turns, so these are the axes in world space. -/
def Object3D.lookAtAxes (M : MathEnv) (o : Object3D) (target : Vector3) : RotationAxes :=
  Matrix4.lookAt M target o.position ⟨0, 1, 0⟩

/-- The part of `this.camera` that the controller reads. -/
structure Camera where
  position : Vector3
  fov : ℚ
  deriving DecidableEq

/-- The fields of an `ARCamView` instance.  `canvasHeight` stands for
`this.renderer.domElement.height`, `videoPaused` for `this.effectVideo.paused`. -/
structure ARCamView where
  object : Object3D
  camera : Camera
  canvasHeight : ℚ
  MOVE_SENSITIVITY : ℚ
  MIN_SCALE : ℚ
  MAX_SCALE : ℚ
  LONG_PRESS_TIME : ℚ
  billboardEnabled : Bool
  billboardMode : String
  _billboardTarget : Vector3
  minAllowedScale : ℚ
  maxAllowedScale : ℚ
  minVisibleSize : ℚ
  distanceScaleEnabled : Bool
  baseDistance : ℚ
  distanceScaleFactor : ℚ
  _userScale : ℚ
  videoPaused : Bool
  deriving DecidableEq

/-- The constructor `new ARCamView(container, width, height, x, y, z, scale)`,
as far as the fields above go.  `canvasHeight` is the height the renderer gives
its canvas for the requested size.  The source defaults are `x = 0`, `y = 0`,
`z = -10`, `scale = 1.0`. -/
def ARCamView.new (canvasHeight x y z scale : ℚ) : ARCamView where
  object := ⟨⟨scale, scale, scale⟩, ⟨x, y, z⟩, false, none⟩
  camera := ⟨⟨0, 0, 0⟩, 75⟩
  canvasHeight := canvasHeight
  MOVE_SENSITIVITY := 17 / 10000
  MIN_SCALE := 3 / 10
  MAX_SCALE := 5
  LONG_PRESS_TIME := 300
  billboardEnabled := true
  billboardMode := "spherical"
  _billboardTarget := ⟨0, 0, 0⟩
  minAllowedScale := 1 / 10
  maxAllowedScale := 10
  minVisibleSize := 100
  distanceScaleEnabled := false
  baseDistance := 10
  distanceScaleFactor := 1 / 2
  _userScale := scale
  videoPaused := true

/-! ## Scale and visibility policy -/

/-- The method `enforceScaleLimits(scale = null)`: returns the new state and the
returned value.  A call without argument is `enforceScaleLimits none`. -/
def ARCamView.enforceScaleLimits (v : ARCamView) (scale : Option ℚ) :
    ARCamView × ℚ :=
  let scale := match scale with
    | none => v.object.scale.x
    | some s => s
  let clampedScale := clamp scale v.minAllowedScale v.maxAllowedScale
  ({ v with object := { v.object with
      scale := v.object.scale.set clampedScale clampedScale clampedScale } },
   clampedScale)

/-- The method `getDistanceToCamera()`. -/
def ARCamView.getDistanceToCamera (M : MathEnv) (v : ARCamView) : ℚ :=
  (v.object.position.sub v.camera.position).length M

/-- The method `applyDistanceScaleCompensation()`. -/
def ARCamView.applyDistanceScaleCompensation (M : MathEnv) (v : ARCamView) :
    Option ARCamView :=
  if !v.distanceScaleEnabled then some v else do
    let distance := v.getDistanceToCamera M
    let distanceRatio ← jsDiv distance v.baseDistance
    let compensation := 1 + (distanceRatio - 1) * v.distanceScaleFactor
    -- `this._userScale || 1.0`: zero is falsy
    let baseScale := if v._userScale = 0 then 1 else v._userScale
    let compensatedScale := baseScale * max (1 / 2) compensation
    some (v.enforceScaleLimits (some compensatedScale)).1

/-- The method `ensureMinimumVisibility()`. -/
def ARCamView.ensureMinimumVisibility (M : MathEnv) (v : ARCamView) :
    Option ARCamView := do
  let distance := v.getDistanceToCamera M
  let fov := v.camera.fov * (M.PI / 180)
  let screenHeight := v.canvasHeight
  let objectWorldSize := v.object.scale.x * 3
  let a ← jsDiv objectWorldSize distance
  let b ← jsDiv screenHeight (2 * M.tan (fov / 2))
  let projectedSize := a * b
  if projectedSize < v.minVisibleSize then do
    let r ← jsDiv v.minVisibleSize projectedSize
    let requiredScale := r * v.object.scale.x
    some (v.enforceScaleLimits (some requiredScale)).1
  else
    some v

/-- The method `setScale(scale)`. -/
def ARCamView.setScale (v : ARCamView) (scale : ℚ) : ARCamView :=
  let v1 := { v with _userScale := clamp scale v.MIN_SCALE v.MAX_SCALE }
  (v1.enforceScaleLimits (some v1._userScale)).1

/-- The method `resetScale()`. -/
def ARCamView.resetScale (v : ARCamView) : ARCamView :=
  { v with _userScale := 1, object := { v.object with scale := v.object.scale.set 1 1 1 } }

/-! ## Billboard and frame callback -/

/-- The method `_sphericalBillboard()`. -/
def ARCamView._sphericalBillboard (v : ARCamView) : ARCamView :=
  let t := v.camera.position
  { v with _billboardTarget := t, object := { v.object with lookAtTarget := some t } }

/-- The method `_cylindricalBillboard()`. -/
def ARCamView._cylindricalBillboard (v : ARCamView) : ARCamView :=
  let t := v._billboardTarget.set v.camera.position.x v.object.position.y v.camera.position.z
  { v with _billboardTarget := t, object := { v.object with lookAtTarget := some t } }

/-- The method `_updateBillboard()`. -/
def ARCamView._updateBillboard (v : ARCamView) : ARCamView :=
  if v.billboardMode = "spherical" then v._sphericalBillboard else v._cylindricalBillboard

/-- The state change of one call of `_render()`: the billboard update, then the
visibility pass.  Scheduling the next frame, the texture flag and the draw call
do not touch the modelled fields. -/
def ARCamView._render (M : MathEnv) (v : ARCamView) : Option ARCamView :=
  let v1 := if v.billboardEnabled && v.object.visible then v._updateBillboard else v
  if v1.object.visible && v1.distanceScaleEnabled then v1.ensureMinimumVisibility M
  else some v1

/-- A JavaScript value passed where the source expects a mode name. -/
inductive JSValue where
  | str (s : String)
  | num (q : ℚ)
  | bool (b : Bool)
  | null
  | undefined
  deriving DecidableEq

/-- The method `setBillboardMode(mode)`.  The comparisons are `===`, so only a
string can match. -/
def ARCamView.setBillboardMode (v : ARCamView) (mode : JSValue) : ARCamView :=
  match mode with
  | .str m =>
    if m = "spherical" ∨ m = "cylindrical" ∨ m = "none" then
      { v with billboardMode := m, billboardEnabled := (m != "none") }
    else v
  | _ => v

/-- The orientation of the object right after a billboard call: the axes that
`lookAt` computed for the recorded target at the current position. -/
def ARCamView.orientation (M : MathEnv) (v : ARCamView) : Option RotationAxes :=
  v.object.lookAtTarget.map (v.object.lookAtAxes M)

/-! ## Video and camera pose -/

/-- The method `playVideo()`.  `started` tells whether the host lets playback
start; `play()` clears the `paused` flag only then. -/
def ARCamView.playVideo (started : Bool) (v : ARCamView) : ARCamView :=
  if started then { v with videoPaused := false } else v

/-- The method `pauseVideo()`. -/
def ARCamView.pauseVideo (v : ARCamView) : ARCamView :=
  { v with videoPaused := true }

/-- The method `updateCameraPose(pose)`.  The adapter `applyPose` comes from
`alva_ar_three.js`, which is not part of the sources at hand; it is a parameter:
the position it writes into `camera.position` for the pose.  The rotation it
writes into `camera.quaternion` is not among the modelled fields. -/
def ARCamView.updateCameraPose {Pose : Type} (applyPose : Pose → Vector3) (started : Bool)
    (pose : Pose) (v : ARCamView) : ARCamView :=
  let v1 := { v with
    camera := { v.camera with position := applyPose pose }
    object := { v.object with visible := true } }
  if v1.videoPaused then v1.playVideo started else v1

/-- The method `lostCamera()`. -/
def ARCamView.lostCamera (v : ARCamView) : ARCamView :=
  { v with object := { v.object with visible := false } }

/-! ## Touch, mouse and wheel handlers (`_setupTouch`) -/

/-- One entry of `e.targetTouches`. -/
structure Touch where
  clientX : ℚ
  clientY : ℚ
  deriving DecidableEq

/-- The closure `pinchDist(ts)` of `_setupTouch`: the distance of the first two
touches.  It is called with two touches only. -/
def pinchDist (M : MathEnv) (ts : List Touch) : ℚ :=
  match ts with
  | t0 :: t1 :: _ => M.hypot (t0.clientX - t1.clientX) (t0.clientY - t1.clientY)
  | _ => 0

/-- The local variables of `_setupTouch` that its handlers share.  `selected`
is either `null` or `this.object`, hence a flag; `longTimer` is `null` or a
timer identifier. -/
structure TouchState where
  isDrag : Bool
  isPinch : Bool
  isLongPress : Bool
  longTimer : Option ℕ
  selected : Bool
  startPos : ℚ × ℚ
  initPinchDist : ℚ
  initScale : ℚ
  mouseDown : Bool
  deriving DecidableEq

/-- The whole controller: the view, the handler variables and the timer table of
the host (`timers` holds the identifiers of the pending `setTimeout` callbacks,
`nextTimer` is the identifier the next `setTimeout` returns). -/
structure State where
  view : ARCamView
  touch : TouchState
  timers : List ℕ
  nextTimer : ℕ
  deriving DecidableEq

/-- The input events of the handlers.  `hit` is the outcome of the raycast
`hit(ndc(...))`, which the rendering library computes; `timeout id` is the host
running the long-press callback registered under `id`. -/
inductive Event where
  | touchstart (targetTouches : List Touch) (hit : Bool)
  | touchmove (targetTouches : List Touch)
  | touchend (targetTouches : List Touch)
  | mousedown (clientX clientY : ℚ) (hit : Bool)
  | mousemove (clientX clientY : ℚ)
  | mouseup
  | wheel (deltaY : ℚ)
  | timeout (id : ℕ)
  deriving DecidableEq

/-- The call `clearTimeout(longTimer)`: a `null` or stale handle clears nothing. -/
def clearTimeout (timers : List ℕ) (handle : Option ℕ) : List ℕ :=
  match handle with
  | none => timers
  | some id => timers.filter (fun t => t ≠ id)

/-- The state right after the constructor has run `_setupTouch()`. -/
def State.init (v : ARCamView) : State where
  view := v
  touch := ⟨false, false, false, none, false, (0, 0), 0, 1, false⟩
  timers := []
  nextTimer := 1

/-- The `touchstart` listener. -/
def onTouchStart (M : MathEnv) (s : State) (ts : List Touch) (hit : Bool) : State :=
  if ts.length = 2 then
    { s with
      timers := clearTimeout s.timers s.touch.longTimer
      touch := { s.touch with
        isLongPress := false, isDrag := false, isPinch := true
        initPinchDist := pinchDist M ts, initScale := s.view.object.scale.x } }
  else
    match ts with
    | [t0] =>
      let touch := { s.touch with startPos := (t0.clientX, t0.clientY) }
      if hit then
        { s with
          touch := { touch with selected := true, longTimer := some s.nextTimer }
          timers := s.nextTimer :: s.timers
          nextTimer := s.nextTimer + 1 }
      else { s with touch := touch }
    | _ => s

/-- The callback the `touchstart` listener hands to `setTimeout`. -/
def onLongPress (s : State) : State :=
  { s with touch := { s.touch with isLongPress := true, isDrag := true } }

/-- The `touchmove` listener. -/
def onTouchMove (M : MathEnv) (s : State) (ts : List Touch) : Option State :=
  if s.touch.isPinch && ts.length = 2 then do
    let d := pinchDist M ts
    let q ← jsDiv d s.touch.initPinchDist
    let rawScale := s.touch.initScale * q
    let clampedScale := max s.view.MIN_SCALE (min s.view.MAX_SCALE rawScale)
    let v1 := { s.view with _userScale := clampedScale }
    some { s with view := (v1.enforceScaleLimits (some clampedScale)).1 }
  else
    match ts with
    | [t0] =>
      if s.touch.isDrag && s.touch.selected then
        let dx := t0.clientX - s.touch.startPos.1
        let dy := t0.clientY - s.touch.startPos.2
        let depth := (s.view.camera.position.z - s.view.object.position.z)
          * s.view.MOVE_SENSITIVITY
        let p := s.view.object.position
        some { s with
          view := { s.view with object := { s.view.object with
            position := ⟨p.x + dx * depth, p.y - dy * depth, p.z⟩ } }
          touch := { s.touch with startPos := (t0.clientX, t0.clientY) } }
      else some s
    | _ => some s

/-- The `touchend` listener. -/
def onTouchEnd (s : State) (ts : List Touch) : State :=
  let s1 := { s with timers := clearTimeout s.timers s.touch.longTimer }
  if ts.length = 0 then
    { s1 with touch := { s1.touch with
        isDrag := false, isPinch := false, isLongPress := false, selected := false } }
  else s1

/-- The `mousedown` listener. -/
def onMouseDown (s : State) (clientX clientY : ℚ) (hit : Bool) : State :=
  if hit then
    { s with touch := { s.touch with
        mouseDown := true, selected := true, startPos := (clientX, clientY) } }
  else s

/-- The `mousemove` listener. -/
def onMouseMove (s : State) (clientX clientY : ℚ) : State :=
  if !s.touch.mouseDown || !s.touch.selected then s
  else
    let dx := clientX - s.touch.startPos.1
    let dy := clientY - s.touch.startPos.2
    let depth := (s.view.camera.position.z - s.view.object.position.z)
      * s.view.MOVE_SENSITIVITY
    let p := s.view.object.position
    { s with
      view := { s.view with object := { s.view.object with
        position := ⟨p.x + dx * depth, p.y - dy * depth, p.z⟩ } }
      touch := { s.touch with startPos := (clientX, clientY) } }

/-- The `mouseup` listener. -/
def onMouseUp (s : State) : State :=
  { s with touch := { s.touch with mouseDown := false, selected := false } }

/-- The `wheel` listener. -/
def onWheel (s : State) (deltaY : ℚ) : State :=
  let rawScale := s.view.object.scale.x * (if deltaY > 0 then 9 / 10 else 11 / 10)
  let clampedScale := max s.view.MIN_SCALE (min s.view.MAX_SCALE rawScale)
  let v1 := { s.view with _userScale := clampedScale }
  { s with view := (v1.enforceScaleLimits (some clampedScale)).1 }

/-- One event of the controller.  A timer callback runs only while its
identifier is pending, and is then removed from the table. -/
def step (M : MathEnv) (s : State) : Event → Option State
  | .touchstart ts hit => some (onTouchStart M s ts hit)
  | .touchmove ts => onTouchMove M s ts
  | .touchend ts => some (onTouchEnd s ts)
  | .mousedown x y hit => some (onMouseDown s x y hit)
  | .mousemove x y => some (onMouseMove s x y)
  | .mouseup => some (onMouseUp s)
  | .wheel deltaY => some (onWheel s deltaY)
  | .timeout id =>
    if id ∈ s.timers then
      some (onLongPress { s with timers := s.timers.filter (fun t => t ≠ id) })
    else some s

/-- A sequence of events, in order. -/
def run (M : MathEnv) : State → List Event → Option State
  | s, [] => some s
  | s, e :: es => (step M s e).bind (fun s1 => run M s1 es)

/-- A call of `updateCameraPose(pose)` on the view of the controller.  The
method has no access to the handler variables or to the timer table. -/
def State.updateCameraPose {Pose : Type} (applyPose : Pose → Vector3) (started : Bool)
    (pose : Pose) (s : State) : State :=
  { s with view := s.view.updateCameraPose applyPose started pose }

/-- A call of `lostCamera()` on the view of the controller. -/
def State.lostCamera (s : State) : State :=
  { s with view := s.view.lostCamera }

/-- A call of `setBillboardMode(mode)` for each value of a list, in order. -/
def ARCamView.setBillboardModes (v : ARCamView) (modes : List JSValue) : ARCamView :=
  modes.foldl ARCamView.setBillboardMode v

/-! ## Auxiliary notions for the statements -/

/-- The number of touches on the surface after an event, when the event agrees
with the number `n` before it: a `touchstart` reports more touches than before,
a `touchmove` the same number, a `touchend` fewer; the other events involve no
finger.  `none` when the event does not agree with `n`. -/
def touchCountAfter (n : ℕ) : Event → Option ℕ
  | .touchstart ts _ => if n < ts.length then some ts.length else none
  | .touchmove ts => if ts.length = n then some n else none
  | .touchend ts => if ts.length < n then some ts.length else none
  | _ => some n

/-- A trace in which every finger that went down is reported up by a `touchend`
before the count of touches can drop (no touch is withdrawn silently). -/
def fingersConsistent : ℕ → List Event → Bool
  | _, [] => true
  | n, e :: es =>
    match touchCountAfter n e with
    | some m => fingersConsistent m es
    | none => false

/-- The invariant of the gesture variables on such traces, with `n` touches on
the surface: the only timer that can be pending is the one `longTimer` refers
to; no timer is pending while pinching; with no touch on the surface no timer
is pending and no pinch is on; drag and pinch exclude each other. -/
def GestureInv (n : ℕ) (s : State) : Prop :=
  (∀ t ∈ s.timers, s.touch.longTimer = some t) ∧
  (s.timers ≠ [] → s.touch.isPinch = false) ∧
  (n = 0 → s.timers = [] ∧ s.touch.isPinch = false) ∧
  (s.touch.isDrag = true → s.touch.isPinch = false)

/-- The factor by which `v.normalize()` multiplies the components of `v`:
`1 / (length || 1)`. -/
def Vector3.normFactor (M : MathEnv) (v : Vector3) : ℚ :=
  1 / (if v.length M = 0 then 1 else v.length M)

/-- The projected on-screen size that `ensureMinimumVisibility()` computes for
the scale `sc`, when its divisors are not zero:
`(sc * 3 / distance) * (screenHeight / (2 * Math.tan(fov / 2)))`. -/
def ARCamView.projectedSize (M : MathEnv) (v : ARCamView) (sc : ℚ) : ℚ :=
  (sc * 3 / v.getDistanceToCamera M) *
    (v.canvasHeight / (2 * M.tan (v.camera.fov * (M.PI / 180) / 2)))

/-- The fields the billboard update of a frame writes: the scratch vector
`_billboardTarget` and the orientation of the object. -/
def ARCamView.withBillboard (v : ARCamView) (t : Vector3) (l : Option Vector3) : ARCamView :=
  { v with _billboardTarget := t, object := { v.object with lookAtTarget := l } }

/-! ## Concrete environment and states for examples -/

/-- A numeric environment for evaluating concrete scenarios.  It is exact where
the scenarios use it: `hypot` on axis-aligned arguments, `sqrt` at `0`, `100`
and `400`; `PI` and the tangent of half the default field of view (37.5 degrees)
are decimal approximations.  Elsewhere the values are placeholders. -/
def exampleMath : MathEnv where
  PI := 355 / 113
  tan := fun x => if x = 75 * (355 / 113 / 180) / 2 then 76733 / 100000 else x
  sqrt := fun x => if x = 100 then 10 else if x = 400 then 20 else if x = 0 then 0 else x
  hypot := fun a b => if b = 0 then |a| else if a = 0 then |b| else max |a| |b|

/-- A visible object of scale 1 at distance 10 on a canvas 1000 pixels high,
with the per-frame visibility pass enabled; `_userScale` is 1. -/
def nearView : ARCamView :=
  { ARCamView.new 1000 0 0 (-10) 1 with
    distanceScaleEnabled := true
    object := { (ARCamView.new 1000 0 0 (-10) 1).object with visible := true } }

/-- The state `nearView` with the object scale 2 left by earlier frames; every
other field, `_userScale` included, is the same. -/
def nearViewScaled : ARCamView :=
  { nearView with object := { nearView.object with scale := ⟨2, 2, 2⟩ } }

/-- The state `nearView` on a canvas 100 pixels high, where the object projects
below the floor of 100 pixels. -/
def smallCanvasView : ARCamView :=
  { nearView with canvasHeight := 100 }

/-- The view built by the constructor with `scale = 0` (so `_userScale = 0`),
at distance 10, with distance compensation switched on. -/
def zeroScaleView : ARCamView :=
  { ARCamView.new 480 0 0 (-10) 0 with distanceScaleEnabled := true }

/-- The controller after a press on the target at `(10, 10)` and the firing of
its long-press timer, from the initial state of the default view. -/
def draggingState : State :=
  onLongPress { onTouchStart exampleMath (State.init (ARCamView.new 480 0 0 (-10) 1))
    [⟨10, 10⟩] true with timers := [] }

/-- The default view after `setBillboardMode('none')`, with the object shown. -/
def noBillboardView : ARCamView :=
  ((ARCamView.new 480 0 0 (-10) 1).setBillboardMode (JSValue.str "none")).updateCameraPose
    (fun p : Vector3 => p) true ⟨0, 0, 0⟩

/-- The view built by the constructor with the object at `(0, -10, 0)`, straight
below the camera, which starts at the origin. -/
def belowCameraView : ARCamView :=
  ARCamView.new 480 0 (-10) 0 1

/-- The view built by the constructor with the object at the origin, where the
camera starts. -/
def atCameraView : ARCamView :=
  ARCamView.new 480 0 0 0 1

/-- The default view on a canvas 100 pixels high with the per-frame pass
switched on, after a camera pose that puts the camera at `(0, 0, 10)`, at
distance 20 from the object; `_userScale` and the object scale are 1. -/
def farPoseView : ARCamView :=
  ({ ARCamView.new 100 0 0 (-10) 1 with distanceScaleEnabled := true } :
    ARCamView).updateCameraPose (fun p : Vector3 => p) true ⟨0, 0, 10⟩

/-- The state one frame after `farPoseView`: the billboard has turned the
object to the camera and the visibility floor has committed the scale 10. -/
def farFrameView : ARCamView :=
  { farPoseView with
    _billboardTarget := ⟨0, 0, 10⟩
    object := { farPoseView.object with
      scale := ⟨10, 10, 10⟩, lookAtTarget := some ⟨0, 0, 10⟩ } }

/-- The state after a camera pose that brings the camera back to the origin, at
distance 10, and one more frame. -/
def nearFrameView : ARCamView :=
  { farFrameView.updateCameraPose (fun p : Vector3 => p) true ⟨0, 0, 0⟩ with
    _billboardTarget := ⟨0, 0, 0⟩
    object := { (farFrameView.updateCameraPose (fun p : Vector3 => p) true ⟨0, 0, 0⟩).object with
      lookAtTarget := some ⟨0, 0, 0⟩ } }

/-! ## Facts about `clamp` -/

theorem clamp_ge (x lo hi : ℚ) : lo ≤ clamp x lo hi := by
  unfold clamp
  exact le_max_left _ _

theorem clamp_le (x lo hi : ℚ) (h : lo ≤ hi) : clamp x lo hi ≤ hi := by
  unfold clamp
  exact max_le h (min_le_left _ _)

theorem clamp_eq_self (x lo hi : ℚ) (h1 : lo ≤ x) (h2 : x ≤ hi) : clamp x lo hi = x := by
  unfold clamp
  rw [min_eq_right h2, max_eq_right h1]

/-! ## C1: the hard clamp -/

/-- C1. For every requested scale (an explicit argument, or the current
`object.scale.x` when the argument is omitted) and every configuration with
`minAllowedScale ≤ maxAllowedScale`, `enforceScaleLimits` returns a value in
`[minAllowedScale, maxAllowedScale]`, returns the request itself when the
request already lies in that range, and sets all three axes of `object.scale`
to exactly the value it returns. -/
theorem enforceScaleLimits_spec (v : ARCamView) (arg : Option ℚ)
    (h : v.minAllowedScale ≤ v.maxAllowedScale) :
    v.minAllowedScale ≤ (v.enforceScaleLimits arg).2 ∧
    (v.enforceScaleLimits arg).2 ≤ v.maxAllowedScale ∧
    (v.minAllowedScale ≤ arg.getD v.object.scale.x →
      arg.getD v.object.scale.x ≤ v.maxAllowedScale →
      (v.enforceScaleLimits arg).2 = arg.getD v.object.scale.x) ∧
    (v.enforceScaleLimits arg).1.object.scale =
      ⟨(v.enforceScaleLimits arg).2, (v.enforceScaleLimits arg).2,
       (v.enforceScaleLimits arg).2⟩ := by
  cases arg with
  | none =>
    refine ⟨clamp_ge _ _ _, clamp_le _ _ _ h, fun h1 h2 => ?_, rfl⟩
    exact clamp_eq_self _ _ _ h1 h2
  | some s =>
    refine ⟨clamp_ge _ _ _, clamp_le _ _ _ h, fun h1 h2 => ?_, rfl⟩
    exact clamp_eq_self _ _ _ h1 h2

/-- C1, at the default configuration with a request of 20: the bounds are
`0.1 ≤ 10` and the theorem applies. -/
theorem enforceScaleLimits_spec_witness :
    (ARCamView.new 480 0 0 (-10) 1).minAllowedScale ≤
      (ARCamView.new 480 0 0 (-10) 1).maxAllowedScale ∧
    (ARCamView.new 480 0 0 (-10) 1).minAllowedScale ≤
      ((ARCamView.new 480 0 0 (-10) 1).enforceScaleLimits (some 20)).2 :=
  ⟨by norm_num [ARCamView.new],
   (enforceScaleLimits_spec (ARCamView.new 480 0 0 (-10) 1) (some 20)
      (by norm_num [ARCamView.new])).1⟩

/-! ## C2: the pinch gesture -/

/-- A two-finger move while pinching, with a nonzero initial distance: the
handler variables and the configuration stay as they are, `_userScale` is the
soft-clamped request and the object scale is its hard clamp. -/
theorem pinch_move_step (M : MathEnv) (s : State) (c d : Touch)
    (hp : s.touch.isPinch = true) (hd : s.touch.initPinchDist ≠ 0) :
    ∃ s2, step M s (.touchmove [c, d]) = some s2 ∧
      s2.touch = s.touch ∧
      s2.view.MIN_SCALE = s.view.MIN_SCALE ∧ s2.view.MAX_SCALE = s.view.MAX_SCALE ∧
      s2.view.minAllowedScale = s.view.minAllowedScale ∧
      s2.view.maxAllowedScale = s.view.maxAllowedScale ∧
      s2.view._userScale =
        clamp (s.touch.initScale * pinchDist M [c, d] / s.touch.initPinchDist)
          s.view.MIN_SCALE s.view.MAX_SCALE ∧
      s2.view.object.scale =
        ⟨clamp s2.view._userScale s.view.minAllowedScale s.view.maxAllowedScale,
         clamp s2.view._userScale s.view.minAllowedScale s.view.maxAllowedScale,
         clamp s2.view._userScale s.view.minAllowedScale s.view.maxAllowedScale⟩ := by
  simp only [step, onTouchMove, hp, jsDiv, hd, List.length_cons, List.length_nil,
    Bool.true_and, decide_True, if_true, if_false, Option.bind_eq_bind, Option.some_bind,
    Option.pure_def, bind, pure]
  refine ⟨_, rfl, rfl, rfl, rfl, rfl, rfl, ?_, rfl⟩
  simp only [clamp, mul_div_assoc, ARCamView.enforceScaleLimits]

theorem run_append (M : MathEnv) (s : State) (xs ys : List Event) :
    run M s (xs ++ ys) = (run M s xs).bind (fun s1 => run M s1 ys) := by
  induction xs generalizing s with
  | nil => simp [run]
  | cons e es ih =>
    simp only [List.cons_append, run]
    cases step M s e with
    | none => simp
    | some s1 => simpa using ih s1

/-- Any number of two-finger moves while pinching leave the handler variables
and the four scale bounds as they are. -/
theorem run_pinch_moves (M : MathEnv) (moves : List Event) (s : State)
    (hm : ∀ m ∈ moves, ∃ p q, m = Event.touchmove [p, q])
    (hp : s.touch.isPinch = true) (hd : s.touch.initPinchDist ≠ 0) :
    ∃ s2, run M s moves = some s2 ∧ s2.touch = s.touch ∧
      s2.view.MIN_SCALE = s.view.MIN_SCALE ∧ s2.view.MAX_SCALE = s.view.MAX_SCALE ∧
      s2.view.minAllowedScale = s.view.minAllowedScale ∧
      s2.view.maxAllowedScale = s.view.maxAllowedScale := by
  induction moves generalizing s with
  | nil => exact ⟨s, rfl, rfl, rfl, rfl, rfl, rfl⟩
  | cons e es ih =>
    obtain ⟨p, q, rfl⟩ := hm e (List.mem_cons_self _ _)
    obtain ⟨s1, h1, ht, ha, hb, hc, hd1, -, -⟩ := pinch_move_step M s p q hp hd
    obtain ⟨s2, h2, ht2, ha2, hb2, hc2, hd2⟩ :=
      ih s1 (fun m hmem => hm m (List.mem_cons_of_mem _ hmem)) (by rw [ht]; exact hp)
        (by rw [ht]; exact hd)
    refine ⟨s2, ?_, ht2.trans ht, ha2.trans ha, hb2.trans hb, hc2.trans hc, hd2.trans hd1⟩
    simp only [run, h1, Option.some_bind, h2]

/-- C2. A pinch gesture begun by a two-touch `touchstart` at effective scale
`object.scale.x` with initial two-finger distance `d0 > 0`, followed by any
number of two-finger moves and then a two-finger move to distance `d`, sets
`_userScale = clamp(initScale * d / d0, MIN_SCALE, MAX_SCALE)` and commits the
hard clamp of that value, for every configuration.  `_userScale` is at least
`MIN_SCALE`; for an interval `[MIN_SCALE, MAX_SCALE]` that is one
(`MIN_SCALE ≤ MAX_SCALE`) it is at most `MAX_SCALE`, so it lies in the interval
before the absolute clamp, and when moreover `MAX_SCALE ≤ maxAllowedScale` and
`minAllowedScale ≤ MIN_SCALE` the committed object scale equals `_userScale`. -/
theorem pinch_gesture_spec (M : MathEnv) (s0 : State) (a b c d : Touch) (hit : Bool)
    (moves : List Event) (hm : ∀ m ∈ moves, ∃ p q, m = Event.touchmove [p, q])
    (hd0 : 0 < pinchDist M [a, b]) :
    ∃ s2, run M s0 (Event.touchstart [a, b] hit :: (moves ++ [Event.touchmove [c, d]]))
        = some s2 ∧
      s2.view._userScale =
        clamp (s0.view.object.scale.x * pinchDist M [c, d] / pinchDist M [a, b])
          s0.view.MIN_SCALE s0.view.MAX_SCALE ∧
      s2.view.object.scale =
        ⟨clamp s2.view._userScale s0.view.minAllowedScale s0.view.maxAllowedScale,
         clamp s2.view._userScale s0.view.minAllowedScale s0.view.maxAllowedScale,
         clamp s2.view._userScale s0.view.minAllowedScale s0.view.maxAllowedScale⟩ ∧
      s0.view.MIN_SCALE ≤ s2.view._userScale ∧
      (s0.view.MIN_SCALE ≤ s0.view.MAX_SCALE →
        s2.view._userScale ≤ s0.view.MAX_SCALE ∧
        (s0.view.MAX_SCALE ≤ s0.view.maxAllowedScale →
          s0.view.minAllowedScale ≤ s0.view.MIN_SCALE →
          s2.view.object.scale =
            ⟨s2.view._userScale, s2.view._userScale, s2.view._userScale⟩)) := by
  have hstart : step M s0 (Event.touchstart [a, b] hit) = some (onTouchStart M s0 [a, b] hit) :=
    rfl
  have ht : (onTouchStart M s0 [a, b] hit).touch.isPinch = true := by
    simp [onTouchStart]
  have hdist : (onTouchStart M s0 [a, b] hit).touch.initPinchDist = pinchDist M [a, b] := by
    simp [onTouchStart]
  have hscale : (onTouchStart M s0 [a, b] hit).touch.initScale = s0.view.object.scale.x := by
    simp [onTouchStart]
  have hview : (onTouchStart M s0 [a, b] hit).view = s0.view := by
    simp [onTouchStart]
  have hne : (onTouchStart M s0 [a, b] hit).touch.initPinchDist ≠ 0 := by
    rw [hdist]; exact ne_of_gt hd0
  obtain ⟨s1, h1, ht1, ha, hb, hc, hd1⟩ := run_pinch_moves M moves _ hm ht hne
  obtain ⟨s2, h2, -, -, -, -, -, hu, hs⟩ :=
    pinch_move_step M s1 c d (by rw [ht1]; exact ht) (by rw [ht1]; exact hne)
  rw [ht1, hdist, hscale, ha, hb, hview] at hu
  rw [hc, hd1, hview] at hs
  have hlo : s0.view.MIN_SCALE ≤ s2.view._userScale := by rw [hu]; exact clamp_ge _ _ _
  refine ⟨s2, ?_, hu, hs, hlo, fun hcfg => ?_⟩
  · simp only [run, hstart, Option.some_bind, run_append, h1, h2]
  · have hhi : s2.view._userScale ≤ s0.view.MAX_SCALE := by
      rw [hu]; exact clamp_le _ _ _ hcfg
    refine ⟨hhi, fun h3 h4 => ?_⟩
    rw [hs, clamp_eq_self _ _ _ (le_trans h4 hlo) (le_trans hhi h3)]

/-- C2, the scenario of the specification: bounds `0.1`, `10`, `0.3`, `5`, a
pinch begun at scale `1` with the fingers `100` apart and moved to `1000` apart
commits the effective scale `5`. -/
theorem pinch_gesture_spec_witness :
    (∀ m ∈ ([] : List Event), ∃ p q, m = Event.touchmove [p, q]) ∧
    0 < pinchDist exampleMath [⟨0, 0⟩, ⟨100, 0⟩] ∧
    (State.init (ARCamView.new 480 0 0 (-10) 1)).view.MIN_SCALE ≤
      (State.init (ARCamView.new 480 0 0 (-10) 1)).view.MAX_SCALE ∧
    ∃ s2, run exampleMath (State.init (ARCamView.new 480 0 0 (-10) 1))
        [Event.touchstart [⟨0, 0⟩, ⟨100, 0⟩] false, Event.touchmove [⟨0, 0⟩, ⟨1000, 0⟩]]
        = some s2 ∧
      s2.view._userScale = 5 ∧ s2.view.object.scale = ⟨5, 5, 5⟩ := by
  have hm : ∀ m ∈ ([] : List Event), ∃ p q, m = Event.touchmove [p, q] := by simp
  have h0 : 0 < pinchDist exampleMath [⟨0, 0⟩, ⟨100, 0⟩] := by
    norm_num [pinchDist, exampleMath]
  have hc : (State.init (ARCamView.new 480 0 0 (-10) 1)).view.MIN_SCALE ≤
      (State.init (ARCamView.new 480 0 0 (-10) 1)).view.MAX_SCALE := by
    norm_num [State.init, ARCamView.new]
  obtain ⟨s2, hrun, hu, -, -, hrange⟩ :=
    pinch_gesture_spec exampleMath (State.init (ARCamView.new 480 0 0 (-10) 1))
      ⟨0, 0⟩ ⟨100, 0⟩ ⟨0, 0⟩ ⟨1000, 0⟩ false [] hm h0
  have hu5 : s2.view._userScale = 5 := by
    rw [hu]
    norm_num [pinchDist, exampleMath, State.init, ARCamView.new, clamp]
  refine ⟨hm, h0, hc, s2, hrun, hu5, ?_⟩
  rw [(hrange hc).2 (by norm_num [State.init, ARCamView.new])
    (by norm_num [State.init, ARCamView.new]), hu5]

/-- Outside that case the two formulas still hold, but the soft clamp returns
`MIN_SCALE`: with `MIN_SCALE = 20` above `MAX_SCALE = 5` (the other fields at
their defaults), a pinch from `100` to `1000` apart at scale `1` stores
`_userScale = clamp(10, 20, 5) = 20` and commits `clamp(20, 0.1, 10) = 10`. -/
theorem pinch_inverted_bounds :
    0 < pinchDist exampleMath [⟨0, 0⟩, ⟨100, 0⟩] ∧
    ∃ s2, run exampleMath
        (State.init { ARCamView.new 480 0 0 (-10) 1 with MIN_SCALE := 20 })
        [Event.touchstart [⟨0, 0⟩, ⟨100, 0⟩] false, Event.touchmove [⟨0, 0⟩, ⟨1000, 0⟩]]
        = some s2 ∧
      s2.view._userScale = 20 ∧ s2.view.MAX_SCALE = 5 ∧
      s2.view.object.scale = ⟨10, 10, 10⟩ := by
  refine ⟨by norm_num [pinchDist, exampleMath], ?_⟩
  norm_num [run, step, onTouchStart, onTouchMove, pinchDist, exampleMath, jsDiv,
    State.init, ARCamView.new, ARCamView.enforceScaleLimits, clamp, Vector3.set,
    clearTimeout]

/-! ## C3: `setScale` and the wheel -/

/-- C3. `setScale(x)` and a wheel tick (request `object.scale.x * 0.9` when
`deltaY > 0`, `object.scale.x * 1.1` otherwise) both store
`_userScale = clamp(request, MIN_SCALE, MAX_SCALE)` and commit the object scale
`clamp(_userScale, minAllowedScale, maxAllowedScale)` on all three axes; the
wheel event is always accepted.  For every request and every configuration with
`minAllowedScale ≤ maxAllowedScale`, whatever the soft bounds are, the committed
scale lies in `[minAllowedScale, maxAllowedScale]`. -/
theorem setScale_wheel_two_stage_clamp (M : MathEnv) (v : ARCamView) (s : State)
    (x deltaY : ℚ) :
    ((v.setScale x)._userScale = clamp x v.MIN_SCALE v.MAX_SCALE ∧
     (v.setScale x).object.scale =
       ⟨clamp (clamp x v.MIN_SCALE v.MAX_SCALE) v.minAllowedScale v.maxAllowedScale,
        clamp (clamp x v.MIN_SCALE v.MAX_SCALE) v.minAllowedScale v.maxAllowedScale,
        clamp (clamp x v.MIN_SCALE v.MAX_SCALE) v.minAllowedScale v.maxAllowedScale⟩ ∧
     (v.minAllowedScale ≤ v.maxAllowedScale →
       v.minAllowedScale ≤ (v.setScale x).object.scale.x ∧
       (v.setScale x).object.scale.x ≤ v.maxAllowedScale)) ∧
    (∃ s2, step M s (Event.wheel deltaY) = some s2 ∧
      s2.view._userScale =
        clamp (s.view.object.scale.x * (if deltaY > 0 then 9 / 10 else 11 / 10))
          s.view.MIN_SCALE s.view.MAX_SCALE ∧
      s2.view.object.scale =
        ⟨clamp s2.view._userScale s.view.minAllowedScale s.view.maxAllowedScale,
         clamp s2.view._userScale s.view.minAllowedScale s.view.maxAllowedScale,
         clamp s2.view._userScale s.view.minAllowedScale s.view.maxAllowedScale⟩ ∧
      (s.view.minAllowedScale ≤ s.view.maxAllowedScale →
        s.view.minAllowedScale ≤ s2.view.object.scale.x ∧
        s2.view.object.scale.x ≤ s.view.maxAllowedScale)) := by
  refine ⟨⟨rfl, rfl, fun h => ⟨clamp_ge _ _ _, clamp_le _ _ _ h⟩⟩,
    onWheel s deltaY, rfl, rfl, rfl, fun h => ⟨clamp_ge _ _ _, clamp_le _ _ _ h⟩⟩

/-- C3, where the hard range is strictly inside the soft range
(`minAllowedScale = 1 > MIN_SCALE`, `maxAllowedScale = 2 < MAX_SCALE`): the
hard bound wins for `setScale(4)` and for a wheel tick. -/
theorem setScale_wheel_two_stage_clamp_witness :
    ({ ARCamView.new 480 0 0 (-10) 1 with
        minAllowedScale := 1, maxAllowedScale := 2 } : ARCamView).minAllowedScale ≤
      ({ ARCamView.new 480 0 0 (-10) 1 with
        minAllowedScale := 1, maxAllowedScale := 2 } : ARCamView).maxAllowedScale ∧
    (({ ARCamView.new 480 0 0 (-10) 1 with
        minAllowedScale := 1, maxAllowedScale := 2 } : ARCamView).setScale 4).object.scale.x
      ≤ 2 :=
  ⟨by norm_num [ARCamView.new],
   ((setScale_wheel_two_stage_clamp exampleMath
      { ARCamView.new 480 0 0 (-10) 1 with minAllowedScale := 1, maxAllowedScale := 2 }
      (State.init { ARCamView.new 480 0 0 (-10) 1 with
        minAllowedScale := 1, maxAllowedScale := 2 }) 4 1).1.2.2
      (by norm_num [ARCamView.new])).2⟩

/-! ## C4: `resetScale` -/

/-- C4. For every state and every configuration, `resetScale()` leaves
`_userScale = 1` and the object scale exactly `(1, 1, 1)` and changes nothing
else; it does not pass through `enforceScaleLimits`: whenever `1` lies outside
`[minAllowedScale, maxAllowedScale]` (with `minAllowedScale ≤ maxAllowedScale`)
the scale it leaves differs from the one `enforceScaleLimits(1)` would commit. -/
theorem resetScale_spec (v : ARCamView) :
    (v.resetScale)._userScale = 1 ∧
    (v.resetScale).object.scale = ⟨1, 1, 1⟩ ∧
    v.resetScale = { v with _userScale := 1, object := { v.object with scale := ⟨1, 1, 1⟩ } } ∧
    (v.minAllowedScale ≤ v.maxAllowedScale →
      (1 < v.minAllowedScale ∨ v.maxAllowedScale < 1) →
      (v.resetScale).object.scale ≠ (v.enforceScaleLimits (some 1)).1.object.scale) := by
  refine ⟨rfl, rfl, rfl, fun h hout heq => ?_⟩
  have hx : (1 : ℚ) = clamp 1 v.minAllowedScale v.maxAllowedScale :=
    congrArg Vector3.x heq
  rcases hout with h1 | h1
  · have := clamp_ge 1 v.minAllowedScale v.maxAllowedScale
    rw [← hx] at this
    exact absurd h1 (not_lt.mpr this)
  · have := clamp_le 1 v.minAllowedScale v.maxAllowedScale h
    rw [← hx] at this
    exact absurd h1 (not_lt.mpr this)

/-- C4, at a configuration whose hard range `[2, 10]` excludes `1`: the reset
still yields `(1, 1, 1)`. -/
theorem resetScale_spec_witness :
    ({ ARCamView.new 480 0 0 (-10) 3 with minAllowedScale := 2 } : ARCamView).minAllowedScale ≤
      ({ ARCamView.new 480 0 0 (-10) 3 with minAllowedScale := 2 } : ARCamView).maxAllowedScale ∧
    (1 < ({ ARCamView.new 480 0 0 (-10) 3 with minAllowedScale := 2 } : ARCamView).minAllowedScale ∨
      ({ ARCamView.new 480 0 0 (-10) 3 with minAllowedScale := 2 } : ARCamView).maxAllowedScale
        < 1) ∧
    (({ ARCamView.new 480 0 0 (-10) 3 with minAllowedScale := 2 } : ARCamView).resetScale).object.scale
      ≠ (({ ARCamView.new 480 0 0 (-10) 3 with minAllowedScale := 2 } : ARCamView).enforceScaleLimits
          (some 1)).1.object.scale :=
  ⟨by norm_num [ARCamView.new], Or.inl (by norm_num [ARCamView.new]),
   (resetScale_spec { ARCamView.new 480 0 0 (-10) 3 with minAllowedScale := 2 }).2.2.2
     (by norm_num [ARCamView.new]) (Or.inl (by norm_num [ARCamView.new]))⟩

/-! ## C5: cancelling the long-press timer -/

theorem clearTimeout_subset (timers : List ℕ) (h : Option ℕ) (t : ℕ)
    (ht : t ∈ clearTimeout timers h) : t ∈ timers := by
  cases h with
  | none => exact ht
  | some id => exact (List.mem_filter.mp ht).1

theorem not_mem_clearTimeout (timers : List ℕ) (id : ℕ) :
    id ∉ clearTimeout timers (some id) := by
  simp [clearTimeout, List.mem_filter]

/-- The handler `touchmove` never touches the timer table, the timer counter
or the handle `longTimer`. -/
theorem onTouchMove_timers (M : MathEnv) (s s1 : State) (ts : List Touch)
    (h : onTouchMove M s ts = some s1) :
    s1.timers = s.timers ∧ s1.nextTimer = s.nextTimer ∧
      s1.touch.longTimer = s.touch.longTimer := by
  unfold onTouchMove at h
  split at h
  · simp only [jsDiv, Option.bind_eq_bind, Option.pure_def, bind, pure] at h
    split at h
    · simp at h
    · simp only [Option.some_bind, Option.some.injEq] at h
      subst h
      exact ⟨rfl, rfl, rfl⟩
  · split at h
    · split at h <;>
      · simp only [Option.some.injEq] at h
        subst h
        exact ⟨rfl, rfl, rfl⟩
    · simp only [Option.some.injEq] at h
      subst h
      exact ⟨rfl, rfl, rfl⟩

/-- Every event leaves in the timer table only identifiers that were pending or
the one just handed out, and never lowers the timer counter. -/
theorem step_timers (M : MathEnv) (s s1 : State) (e : Event) (h : step M s e = some s1) :
    (∀ t ∈ s1.timers, t ∈ s.timers ∨ t = s.nextTimer) ∧ s.nextTimer ≤ s1.nextTimer := by
  cases e with
  | touchstart ts hit =>
    simp only [step, Option.some.injEq] at h
    subst h
    unfold onTouchStart
    split
    · exact ⟨fun t ht => Or.inl (clearTimeout_subset _ _ _ ht), le_refl _⟩
    · split
      · split
        · refine ⟨fun t ht => ?_, Nat.le_succ _⟩
          rcases List.mem_cons.mp ht with h1 | h1
          · exact Or.inr h1
          · exact Or.inl h1
        · exact ⟨fun t ht => Or.inl ht, le_refl _⟩
      · exact ⟨fun t ht => Or.inl ht, le_refl _⟩
  | touchmove ts =>
    obtain ⟨h1, h2, -⟩ := onTouchMove_timers M s s1 ts h
    rw [h1, h2]
    exact ⟨fun t ht => Or.inl ht, le_refl _⟩
  | touchend ts =>
    simp only [step, Option.some.injEq] at h
    subst h
    unfold onTouchEnd
    split
    · exact ⟨fun t ht => Or.inl (clearTimeout_subset _ _ _ ht), le_refl _⟩
    · exact ⟨fun t ht => Or.inl (clearTimeout_subset _ _ _ ht), le_refl _⟩
  | mousedown x y hit =>
    simp only [step, Option.some.injEq] at h
    subst h
    unfold onMouseDown
    split <;> exact ⟨fun t ht => Or.inl ht, le_refl _⟩
  | mousemove x y =>
    simp only [step, Option.some.injEq] at h
    subst h
    unfold onMouseMove
    split <;> exact ⟨fun t ht => Or.inl ht, le_refl _⟩
  | mouseup =>
    simp only [step, Option.some.injEq] at h
    subst h
    exact ⟨fun t ht => Or.inl ht, le_refl _⟩
  | wheel dy =>
    simp only [step, Option.some.injEq] at h
    subst h
    exact ⟨fun t ht => Or.inl ht, le_refl _⟩
  | timeout id =>
    simp only [step] at h
    split at h
    · simp only [Option.some.injEq] at h
      subst h
      exact ⟨fun t ht => Or.inl (List.mem_filter.mp ht).1, le_refl _⟩
    · simp only [Option.some.injEq] at h
      subst h
      exact ⟨fun t ht => Or.inl ht, le_refl _⟩

/-- An event that is not a single-touch `touchstart` on the target keeps the
handle `longTimer` and the timer counter. -/
theorem step_longTimer (M : MathEnv) (s s1 : State) (e : Event)
    (hne : ∀ x, e ≠ Event.touchstart [x] true) (h : step M s e = some s1) :
    s1.touch.longTimer = s.touch.longTimer ∧ s1.nextTimer = s.nextTimer := by
  cases e with
  | touchstart ts hit =>
    simp only [step, Option.some.injEq] at h
    subst h
    unfold onTouchStart
    split
    · exact ⟨rfl, rfl⟩
    · split
      · rename_i t0 hlen
        split
        · rename_i hh
          subst hh
          exact absurd rfl (hne t0)
        · exact ⟨rfl, rfl⟩
      · exact ⟨rfl, rfl⟩
  | touchmove ts =>
    obtain ⟨-, h2, h3⟩ := onTouchMove_timers M s s1 ts h
    exact ⟨h3, h2⟩
  | touchend ts =>
    simp only [step, Option.some.injEq] at h
    subst h
    unfold onTouchEnd
    split <;> exact ⟨rfl, rfl⟩
  | mousedown x y hit =>
    simp only [step, Option.some.injEq] at h
    subst h
    unfold onMouseDown
    split <;> exact ⟨rfl, rfl⟩
  | mousemove x y =>
    simp only [step, Option.some.injEq] at h
    subst h
    unfold onMouseMove
    split <;> exact ⟨rfl, rfl⟩
  | mouseup =>
    simp only [step, Option.some.injEq] at h
    subst h
    exact ⟨rfl, rfl⟩
  | wheel dy =>
    simp only [step, Option.some.injEq] at h
    subst h
    exact ⟨rfl, rfl⟩
  | timeout id =>
    simp only [step] at h
    split at h <;>
    · simp only [Option.some.injEq] at h
      subst h
      exact ⟨rfl, rfl⟩

theorem run_longTimer (M : MathEnv) (es : List Event) (s s1 : State)
    (hne : ∀ m ∈ es, ∀ x, m ≠ Event.touchstart [x] true) (h : run M s es = some s1) :
    s1.touch.longTimer = s.touch.longTimer ∧ s1.nextTimer = s.nextTimer := by
  induction es generalizing s with
  | nil =>
    simp only [run, Option.some.injEq] at h
    subst h
    exact ⟨rfl, rfl⟩
  | cons e es ih =>
    simp only [run] at h
    cases hs : step M s e with
    | none => rw [hs] at h; simp at h
    | some s2 =>
      rw [hs, Option.some_bind] at h
      obtain ⟨h1, h2⟩ := step_longTimer M s s2 e (hne e (List.mem_cons_self _ _)) hs
      obtain ⟨h3, h4⟩ := ih s2 (fun m hm => hne m (List.mem_cons_of_mem _ hm)) h
      exact ⟨h3.trans h1, h4.trans h2⟩

/-- A two-touch `touchstart` or a `touchend` removes the timer that `longTimer`
refers to from the timer table. -/
theorem step_competing (M : MathEnv) (s s1 : State) (e : Event) (id : ℕ)
    (he : (∃ a b hit, e = Event.touchstart [a, b] hit) ∨ (∃ ts, e = Event.touchend ts))
    (hl : s.touch.longTimer = some id) (h : step M s e = some s1) :
    id ∉ s1.timers ∧ s1.nextTimer = s.nextTimer := by
  rcases he with ⟨a, b, hit, rfl⟩ | ⟨ts, rfl⟩
  · simp only [step, Option.some.injEq] at h
    subst h
    simp only [onTouchStart, List.length_cons, List.length_nil, if_true, hl]
    exact ⟨not_mem_clearTimeout _ _, trivial⟩
  · simp only [step, Option.some.injEq] at h
    subst h
    unfold onTouchEnd
    split
    · simp only [hl]
      exact ⟨not_mem_clearTimeout _ _, trivial⟩
    · simp only [hl]
      exact ⟨not_mem_clearTimeout _ _, trivial⟩

/-- A timer identifier that has been handed out and is no longer pending is
never pending again. -/
theorem run_dead_timer (M : MathEnv) (es : List Event) (s s1 : State) (id : ℕ)
    (h1 : id < s.nextTimer) (h2 : id ∉ s.timers) (h : run M s es = some s1) :
    id < s1.nextTimer ∧ id ∉ s1.timers := by
  induction es generalizing s with
  | nil =>
    simp only [run, Option.some.injEq] at h
    subst h
    exact ⟨h1, h2⟩
  | cons e es ih =>
    simp only [run] at h
    cases hs : step M s e with
    | none => rw [hs] at h; simp at h
    | some s2 =>
      rw [hs, Option.some_bind] at h
      obtain ⟨h3, h4⟩ := step_timers M s s2 e hs
      refine ih s2 (lt_of_lt_of_le h1 h4) (fun hmem => ?_) h
      rcases h3 id hmem with h5 | h5
      · exact h2 h5
      · exact absurd h5 (ne_of_lt h1)

theorem run_timeouts_of_no_timer (M : MathEnv) (ids : List ℕ) (s : State)
    (h : s.timers = []) : run M s (ids.map Event.timeout) = some s := by
  induction ids with
  | nil => rfl
  | cons i is ih => simp [run, step, h, ih]

/-- The part of the cancellation that the source gets right.  A single-touch
`touchstart` on the target arms a long-press timer under a fresh identifier.
If afterwards a `touchstart` with two touches or a `touchend` arrives, and no
other single-touch `touchstart` on the target came in between (so that
`longTimer` still refers to that timer), then the timer is cancelled: it is not
pending in any later state, whatever follows.  In particular a press on the
target followed by a two-touch `touchstart`, from the initial state, yields
`isPinch = true` and `isDrag = false`, and no timer firing changes that state
afterwards.  With a second press in between the timer is not cancelled. -/
theorem long_press_cancelled (M : MathEnv) (s0 : State) (t0 : Touch) :
    (∃ s1, step M s0 (Event.touchstart [t0] true) = some s1 ∧
      s1.touch.longTimer = some s0.nextTimer ∧ s1.timers = s0.nextTimer :: s0.timers) ∧
    (∀ (mid : List Event) (e : Event) (post : List Event) (s3 : State),
      (∀ m ∈ mid, ∀ x, m ≠ Event.touchstart [x] true) →
      ((∃ a b hit, e = Event.touchstart [a, b] hit) ∨ (∃ ts, e = Event.touchend ts)) →
      run M s0 (Event.touchstart [t0] true :: (mid ++ e :: post)) = some s3 →
      s0.nextTimer ∉ s3.timers ∧ step M s3 (Event.timeout s0.nextTimer) = some s3) ∧
    (∀ (v : ARCamView) (t1 : Touch) (hit : Bool) (ids : List ℕ),
      ∃ s, run M (State.init v)
          [Event.touchstart [t0] true, Event.touchstart [t0, t1] hit] = some s ∧
        s.touch.isPinch = true ∧ s.touch.isDrag = false ∧
        run M s (ids.map Event.timeout) = some s) := by
  refine ⟨⟨onTouchStart M s0 [t0] true, rfl, ?_, ?_⟩, ?_, ?_⟩
  · simp [onTouchStart]
  · simp [onTouchStart]
  · intro mid e post s3 hmid he hrun
    have hl : (onTouchStart M s0 [t0] true).touch.longTimer = some s0.nextTimer := by
      simp [onTouchStart]
    have hn : (onTouchStart M s0 [t0] true).nextTimer = s0.nextTimer + 1 := by
      simp [onTouchStart]
    have hstart : step M s0 (Event.touchstart [t0] true)
        = some (onTouchStart M s0 [t0] true) := rfl
    simp only [run, hstart, Option.some_bind, run_append] at hrun
    cases hm : run M (onTouchStart M s0 [t0] true) mid with
    | none => rw [hm] at hrun; simp at hrun
    | some s1 =>
      rw [hm, Option.some_bind] at hrun
      obtain ⟨hl1, hn1⟩ := run_longTimer M mid _ s1 hmid hm
      cases hs : step M s1 e with
      | none => rw [hs] at hrun; simp at hrun
      | some s2 =>
        rw [hs, Option.some_bind] at hrun
        obtain ⟨hdead, hn2⟩ := step_competing M s1 s2 e s0.nextTimer he (hl1.trans hl) hs
        have hlt : s0.nextTimer < s2.nextTimer := by
          rw [hn2, hn1, hn]
          exact Nat.lt_succ_self _
        obtain ⟨-, hfinal⟩ := run_dead_timer M post s2 s3 s0.nextTimer hlt hdead hrun
        exact ⟨hfinal, by simp [step, hfinal]⟩
  · intro v t1 hit ids
    refine ⟨onTouchStart M (onTouchStart M (State.init v) [t0] true) [t0, t1] hit, rfl,
      ?_, ?_, ?_⟩
    · simp [onTouchStart]
    · simp [onTouchStart]
    · apply run_timeouts_of_no_timer
      simp [onTouchStart, State.init, clearTimeout]

/-- The cancellation on a concrete trace from the initial state: a press on the
target, a small move, the finger lifted, and then the host trying to run timer
`1`. -/
theorem long_press_cancelled_witness :
    (∀ m ∈ [Event.touchmove [⟨12, 10⟩]], ∀ x, m ≠ Event.touchstart [x] true) ∧
    ((∃ a b hit, Event.touchend [] = Event.touchstart [a, b] hit) ∨
      (∃ ts, Event.touchend [] = Event.touchend ts)) ∧
    ∃ s3, run exampleMath (State.init (ARCamView.new 480 0 0 (-10) 1))
        (Event.touchstart [⟨10, 10⟩] true ::
          ([Event.touchmove [⟨12, 10⟩]] ++ Event.touchend [] :: [Event.timeout 1])) = some s3 ∧
      (State.init (ARCamView.new 480 0 0 (-10) 1)).nextTimer ∉ s3.timers := by
  have hmid : ∀ m ∈ [Event.touchmove [⟨12, 10⟩]], ∀ x, m ≠ Event.touchstart [x] true := by
    intro m hm x
    rw [List.mem_singleton] at hm
    subst hm
    exact fun h => Event.noConfusion h
  have he : (∃ a b hit, Event.touchend [] = Event.touchstart [a, b] hit) ∨
      (∃ ts, Event.touchend [] = Event.touchend ts) := Or.inr ⟨[], rfl⟩
  have hrun : run exampleMath (State.init (ARCamView.new 480 0 0 (-10) 1))
      (Event.touchstart [⟨10, 10⟩] true ::
        ([Event.touchmove [⟨12, 10⟩]] ++ Event.touchend [] :: [Event.timeout 1]))
      = some (onTouchEnd (onTouchStart exampleMath
          (State.init (ARCamView.new 480 0 0 (-10) 1)) [⟨10, 10⟩] true) []) := by
    simp [run, step, onTouchStart, onTouchMove, onTouchEnd, State.init, clearTimeout]
  exact ⟨hmid, he, _, hrun,
    ((long_press_cancelled exampleMath (State.init (ARCamView.new 480 0 0 (-10) 1))
      ⟨10, 10⟩).2.1 _ _ _ _ hmid he hrun).1⟩

/-- C5 fails on the code.  From the initial state a press on the target arms
timer `1`; a second single-touch press on the target, with no `touchend` in
between, arms timer `2` and overwrites `longTimer`.  A `touchend` with no touch
left then clears timer `2` only: timer `1` is still pending, and when it fires
it sets `isDrag` although the finger is up.  The same holds when the competing
event is a two-touch `touchstart`: timer `1` stays pending after it. -/
theorem orphaned_long_press_fires :
    (∃ s, run exampleMath (State.init (ARCamView.new 480 0 0 (-10) 1))
        [Event.touchstart [⟨10, 10⟩] true, Event.touchstart [⟨20, 20⟩] true,
         Event.touchend []] = some s ∧
      s.touch.isDrag = false ∧ s.timers = [1]) ∧
    (∃ s, run exampleMath (State.init (ARCamView.new 480 0 0 (-10) 1))
        [Event.touchstart [⟨10, 10⟩] true, Event.touchstart [⟨20, 20⟩] true,
         Event.touchend [], Event.timeout 1] = some s ∧
      s.touch.isDrag = true ∧ s.touch.isLongPress = true) ∧
    (∃ s, run exampleMath (State.init (ARCamView.new 480 0 0 (-10) 1))
        [Event.touchstart [⟨10, 10⟩] true, Event.touchstart [⟨20, 20⟩] true,
         Event.touchstart [⟨20, 20⟩, ⟨120, 20⟩] false] = some s ∧
      s.touch.isPinch = true ∧ s.timers = [1]) := by
  refine ⟨?_, ?_, ?_⟩ <;>
    simp [run, step, onTouchStart, onTouchEnd, onLongPress, State.init, clearTimeout]

/-! ## C6: drag and pinch -/

/-- C6 fails on this trace from the initial state: a press on the target (timer
`1`), a second single-touch press on the target with no `touchend` in between
(timer `2`, which replaces the handle `longTimer`), a two-touch `touchstart`
(which clears timer `2` only and sets `isPinch`), and then timer `1` firing
(which sets `isDrag`).  Both flags are true in the final state. -/
theorem drag_and_pinch_both_true :
    ∃ s, run exampleMath (State.init (ARCamView.new 480 0 0 (-10) 1))
        [Event.touchstart [⟨10, 10⟩] true, Event.touchstart [⟨20, 20⟩] true,
         Event.touchstart [⟨20, 20⟩, ⟨120, 20⟩] false, Event.timeout 1] = some s ∧
      s.touch.isDrag = true ∧ s.touch.isPinch = true := by
  simp [run, step, onTouchStart, onLongPress, State.init, clearTimeout]

theorem clearTimeout_all (timers : List ℕ) (h : Option ℕ)
    (ha : ∀ t ∈ timers, h = some t) : clearTimeout timers h = [] := by
  cases h with
  | none =>
    simp only [clearTimeout]
    exact List.eq_nil_iff_forall_not_mem.mpr (fun t ht => by simpa using ha t ht)
  | some id =>
    simp only [clearTimeout, List.filter_eq_nil_iff]
    intro t ht
    have := ha t ht
    simp only [Option.some.injEq] at this
    simp [this]

theorem onTouchMove_touch (M : MathEnv) (s s1 : State) (ts : List Touch)
    (h : onTouchMove M s ts = some s1) :
    s1.touch.isDrag = s.touch.isDrag ∧ s1.touch.isPinch = s.touch.isPinch := by
  unfold onTouchMove at h
  split at h
  · simp only [jsDiv, Option.bind_eq_bind, Option.pure_def, bind, pure] at h
    split at h
    · simp at h
    · simp only [Option.some_bind, Option.some.injEq] at h
      subst h
      exact ⟨rfl, rfl⟩
  · split at h
    · split at h <;>
      · simp only [Option.some.injEq] at h
        subst h
        exact ⟨rfl, rfl⟩
    · simp only [Option.some.injEq] at h
      subst h
      exact ⟨rfl, rfl⟩

/-- Every event that agrees with the number of touches keeps the invariant. -/
theorem step_gestureInv (M : MathEnv) (n m : ℕ) (s s1 : State) (e : Event)
    (hinv : GestureInv n s) (hc : touchCountAfter n e = some m)
    (h : step M s e = some s1) : GestureInv m s1 := by
  obtain ⟨ha, hb, hz, hx⟩ := hinv
  cases e with
  | touchstart ts hit =>
    simp only [step, Option.some.injEq] at h
    subst h
    simp only [touchCountAfter] at hc
    split at hc
    · rename_i hlt
      simp only [Option.some.injEq] at hc
      subst hc
      rcases ts with _ | ⟨a, _ | ⟨b, _ | ⟨c, rest⟩⟩⟩
      · simp at hlt
      · have hn : n = 0 := by simpa using hlt
        obtain ⟨hz1, hz2⟩ := hz hn
        cases hit with
        | true =>
          refine ⟨?_, ?_, ?_, ?_⟩
          · simp [onTouchStart, hz1]
          · simp [onTouchStart, hz2]
          · simp
          · simpa [onTouchStart] using hx
        | false =>
          refine ⟨?_, ?_, ?_, ?_⟩
          · simp [onTouchStart, hz1]
          · simp [onTouchStart, hz2]
          · simp
          · simpa [onTouchStart] using hx
      · have hclear := clearTimeout_all s.timers s.touch.longTimer ha
        refine ⟨?_, ?_, ?_, ?_⟩
        · simp [onTouchStart, hclear]
        · simp [onTouchStart, hclear]
        · simp
        · simp [onTouchStart]
      · refine ⟨?_, ?_, ?_, ?_⟩
        · simpa [onTouchStart] using ha
        · simpa [onTouchStart] using hb
        · simp
        · simpa [onTouchStart] using hx
    · simp at hc
  | touchmove ts =>
    simp only [touchCountAfter] at hc
    split at hc
    · simp only [Option.some.injEq] at hc
      subst hc
      obtain ⟨h1, -, h3⟩ := onTouchMove_timers M s s1 ts h
      obtain ⟨h4, h5⟩ := onTouchMove_touch M s s1 ts h
      refine ⟨?_, ?_, ?_, ?_⟩
      · rw [h1, h3]; exact ha
      · rw [h1, h5]; exact hb
      · rw [h1, h5]; exact hz
      · rw [h4, h5]; exact hx
    · simp at hc
  | touchend ts =>
    simp only [step, Option.some.injEq] at h
    subst h
    simp only [touchCountAfter] at hc
    split at hc
    · simp only [Option.some.injEq] at hc
      subst hc
      have hclear := clearTimeout_all s.timers s.touch.longTimer ha
      unfold onTouchEnd
      split
      · refine ⟨?_, ?_, ?_, ?_⟩
        · simp [hclear]
        · simp [hclear]
        · simp [hclear]
        · simp
      · rename_i hlen
        refine ⟨?_, ?_, ?_, ?_⟩
        · simp [hclear]
        · simp [hclear]
        · intro h0; exact absurd h0 hlen
        · simpa using hx
    · simp at hc
  | mousedown x y hit =>
    simp only [step, Option.some.injEq] at h
    subst h
    simp only [touchCountAfter, Option.some.injEq] at hc
    subst hc
    unfold onMouseDown
    split
    · exact ⟨ha, hb, hz, hx⟩
    · exact ⟨ha, hb, hz, hx⟩
  | mousemove x y =>
    simp only [step, Option.some.injEq] at h
    subst h
    simp only [touchCountAfter, Option.some.injEq] at hc
    subst hc
    unfold onMouseMove
    split
    · exact ⟨ha, hb, hz, hx⟩
    · exact ⟨ha, hb, hz, hx⟩
  | mouseup =>
    simp only [step, Option.some.injEq] at h
    subst h
    simp only [touchCountAfter, Option.some.injEq] at hc
    subst hc
    exact ⟨ha, hb, hz, hx⟩
  | wheel dy =>
    simp only [step, Option.some.injEq] at h
    subst h
    simp only [touchCountAfter, Option.some.injEq] at hc
    subst hc
    exact ⟨ha, hb, hz, hx⟩
  | timeout id =>
    simp only [touchCountAfter, Option.some.injEq] at hc
    subst hc
    simp only [step] at h
    split at h
    · rename_i hmem
      simp only [Option.some.injEq] at h
      subst h
      have hne : s.timers ≠ [] := List.ne_nil_of_mem hmem
      have hp : s.touch.isPinch = false := hb hne
      refine ⟨?_, ?_, ?_, ?_⟩
      · intro t ht
        exact ha t (List.mem_filter.mp ht).1
      · intro _; exact hp
      · intro h0; exact absurd (hz h0).1 hne
      · intro _; exact hp
    · simp only [Option.some.injEq] at h
      subst h
      exact ⟨ha, hb, hz, hx⟩

/-- On every trace that follows the fingers on the surface, drag and pinch are
never both on. -/
theorem drag_pinch_exclusive_of_consistent (M : MathEnv) (es : List Event) (n : ℕ)
    (s s1 : State) (hinv : GestureInv n s) (hw : fingersConsistent n es = true)
    (h : run M s es = some s1) :
    ¬ (s1.touch.isDrag = true ∧ s1.touch.isPinch = true) := by
  induction es generalizing n s with
  | nil =>
    simp only [run, Option.some.injEq] at h
    subst h
    intro ⟨h1, h2⟩
    have := hinv.2.2.2 h1
    rw [this] at h2
    exact Bool.noConfusion h2
  | cons e es ih =>
    simp only [fingersConsistent] at hw
    cases hc : touchCountAfter n e with
    | none => rw [hc] at hw; simp at hw
    | some m =>
      rw [hc] at hw
      simp only [run] at h
      cases hs : step M s e with
      | none => rw [hs] at h; simp at h
      | some s2 =>
        rw [hs, Option.some_bind] at h
        exact ih m s2 (step_gestureInv M n m s s2 e hinv hc hs) hw h

theorem gestureInv_init (v : ARCamView) : GestureInv 0 (State.init v) := by
  refine ⟨?_, ?_, ?_, ?_⟩ <;> simp [State.init]

/-- From the initial state, on every trace in which each finger that went down
is reported up by a `touchend`, `isDrag` and `isPinch` are never both true: the
exclusion fails only through a timer that a second press has orphaned. -/
theorem drag_pinch_exclusive_from_init (M : MathEnv) (v : ARCamView) (es : List Event)
    (s : State) (hw : fingersConsistent 0 es = true)
    (h : run M (State.init v) es = some s) :
    ¬ (s.touch.isDrag = true ∧ s.touch.isPinch = true) :=
  drag_pinch_exclusive_of_consistent M es 0 (State.init v) s (gestureInv_init v) hw h

/-! ## C7: the visibility floor

The statements of this section are about the pass computed in exact
arithmetic.  The source computes in doubles, where the quotient and the
product of the pass are rounded, so an equality between the results of two
passes does not carry over from here to the source. -/

/-- The method `ensureMinimumVisibility()` when the distance and the tangent are
not zero: the only division left is the one by the projected size. -/
theorem ensureMinimumVisibility_eq (M : MathEnv) (v : ARCamView)
    (hd : v.getDistanceToCamera M ≠ 0)
    (ht : M.tan (v.camera.fov * (M.PI / 180) / 2) ≠ 0) :
    v.ensureMinimumVisibility M =
      if v.projectedSize M v.object.scale.x < v.minVisibleSize then
        if v.projectedSize M v.object.scale.x = 0 then none
        else some (v.enforceScaleLimits
          (some (v.minVisibleSize / v.projectedSize M v.object.scale.x * v.object.scale.x))).1
      else some v := by
  have h2 : (2 : ℚ) * M.tan (v.camera.fov * (M.PI / 180) / 2) ≠ 0 :=
    mul_ne_zero two_ne_zero ht
  simp only [ARCamView.ensureMinimumVisibility, jsDiv, hd, h2, if_false,
    Option.bind_eq_bind, Option.some_bind, Option.pure_def, bind, pure,
    ARCamView.projectedSize]
  split
  · split
    · simp
    · simp
  · rfl

theorem clamp_ne_zero_of_pos (x lo hi : ℚ) (hx : 0 < x) (h : lo ≤ hi) (hhi : hi ≠ 0) :
    clamp x lo hi ≠ 0 := by
  unfold clamp
  intro h0
  rcases le_total hi x with h1 | h1
  · rw [min_eq_left h1, max_eq_right h] at h0
    exact hhi h0
  · rw [min_eq_right h1] at h0
    have : x ≤ max lo x := le_max_right _ _
    rw [h0] at this
    exact absurd hx (not_lt.mpr this)

theorem enforceScaleLimits_projectedSize (M : MathEnv) (v : ARCamView) (x sc : ℚ) :
    (v.enforceScaleLimits (some x)).1.projectedSize M sc = v.projectedSize M sc := rfl

theorem enforceScaleLimits_twice (v : ARCamView) (x y : ℚ)
    (h : clamp y v.minAllowedScale v.maxAllowedScale
      = clamp x v.minAllowedScale v.maxAllowedScale) :
    ((v.enforceScaleLimits (some x)).1.enforceScaleLimits (some y)).1
      = (v.enforceScaleLimits (some x)).1 := by
  simp only [ARCamView.enforceScaleLimits, Vector3.set, h]

theorem projectedSize_ne_zero (M : MathEnv) (v : ARCamView) (sc : ℚ)
    (hd : v.getDistanceToCamera M ≠ 0) (hh : v.canvasHeight ≠ 0)
    (ht : M.tan (v.camera.fov * (M.PI / 180) / 2) ≠ 0) (hs : sc ≠ 0) :
    v.projectedSize M sc ≠ 0 :=
  mul_ne_zero (div_ne_zero (mul_ne_zero hs three_ne_zero) hd)
    (div_ne_zero hh (mul_ne_zero two_ne_zero ht))

/-- The scale that reaches the floor does not depend on the scale the pass
starts from: `minVisibleSize / projectedSize(sc) * sc` is the same for every
nonzero `sc`. -/
theorem requiredScale_eq (M : MathEnv) (v : ARCamView) (m s c : ℚ)
    (hh : v.canvasHeight ≠ 0) (hs : s ≠ 0) (hc : c ≠ 0) :
    m / v.projectedSize M c * c = m / v.projectedSize M s * s := by
  unfold ARCamView.projectedSize
  generalize v.getDistanceToCamera M = d
  generalize M.tan (v.camera.fov * (M.PI / 180) / 2) = t
  generalize v.canvasHeight = H at hh ⊢
  field_simp
  ring

/-- In exact arithmetic the visibility floor is idempotent: for every state with
positive camera-to-object distance, positive screen height, positive current
object scale, `minAllowedScale ≤ maxAllowedScale` and `maxAllowedScale ≠ 0` (the
tangent of half the field of view being positive), the pass yields a state, and
the pass on that state yields the same state.  The required scale
`minVisibleSize / projectedSize * scale` and the projected size of the next pass
cancel exactly here; in doubles they cancel up to rounding only. -/
theorem ensureMinimumVisibility_idempotent (M : MathEnv) (v : ARCamView)
    (hd : 0 < v.getDistanceToCamera M) (hh : 0 < v.canvasHeight)
    (hs : 0 < v.object.scale.x)
    (ht : 0 < M.tan (v.camera.fov * (M.PI / 180) / 2))
    (hb : v.minAllowedScale ≤ v.maxAllowedScale) (hmax : v.maxAllowedScale ≠ 0) :
    ∃ v1, v.ensureMinimumVisibility M = some v1 ∧
      v1.ensureMinimumVisibility M = some v1 := by
  have hp : 0 < v.projectedSize M v.object.scale.x :=
    mul_pos (div_pos (mul_pos hs three_pos) hd) (div_pos hh (mul_pos two_pos ht))
  rw [ensureMinimumVisibility_eq M v hd.ne' ht.ne']
  by_cases hlt : v.projectedSize M v.object.scale.x < v.minVisibleSize
  · rw [if_pos hlt, if_neg hp.ne']
    refine ⟨_, rfl, ?_⟩
    generalize hreq : v.minVisibleSize / v.projectedSize M v.object.scale.x * v.object.scale.x
      = req
    have hreq0 : 0 < req := by
      rw [← hreq]
      exact mul_pos (div_pos (lt_trans hp hlt) hp) hs
    have hc0 := clamp_ne_zero_of_pos req v.minAllowedScale v.maxAllowedScale hreq0 hb hmax
    have hd1 : (v.enforceScaleLimits (some req)).1.getDistanceToCamera M ≠ 0 := hd.ne'
    have ht1 : M.tan ((v.enforceScaleLimits (some req)).1.camera.fov * (M.PI / 180) / 2) ≠ 0 :=
      ht.ne'
    have hsc : (v.enforceScaleLimits (some req)).1.object.scale.x
        = clamp req v.minAllowedScale v.maxAllowedScale := rfl
    have hmv : (v.enforceScaleLimits (some req)).1.minVisibleSize = v.minVisibleSize := rfl
    rw [ensureMinimumVisibility_eq M _ hd1 ht1, hsc, hmv, enforceScaleLimits_projectedSize]
    split
    · rw [if_neg (projectedSize_ne_zero M v _ hd.ne' hh.ne' ht.ne' hc0),
        requiredScale_eq M v v.minVisibleSize v.object.scale.x _ hh.ne' hs.ne' hc0,
        hreq, enforceScaleLimits_twice v req req rfl]
    · rfl
  · rw [if_neg hlt]
    exact ⟨v, rfl, by rw [ensureMinimumVisibility_eq M v hd.ne' ht.ne', if_neg hlt]⟩

/-- The exact pass at the default configuration on a canvas 100 pixels high,
where the floor is active (projected size about 19.5 pixels, below 100). -/
theorem ensureMinimumVisibility_idempotent_witness :
    0 < (ARCamView.new 100 0 0 (-10) 1).getDistanceToCamera exampleMath ∧
    0 < (ARCamView.new 100 0 0 (-10) 1).canvasHeight ∧
    0 < (ARCamView.new 100 0 0 (-10) 1).object.scale.x ∧
    0 < exampleMath.tan ((ARCamView.new 100 0 0 (-10) 1).camera.fov
      * (exampleMath.PI / 180) / 2) ∧
    (ARCamView.new 100 0 0 (-10) 1).minAllowedScale
      ≤ (ARCamView.new 100 0 0 (-10) 1).maxAllowedScale ∧
    (ARCamView.new 100 0 0 (-10) 1).maxAllowedScale ≠ 0 ∧
    ∃ v1, (ARCamView.new 100 0 0 (-10) 1).ensureMinimumVisibility exampleMath = some v1 ∧
      v1.ensureMinimumVisibility exampleMath = some v1 := by
  have h1 : 0 < (ARCamView.new 100 0 0 (-10) 1).getDistanceToCamera exampleMath := by
    norm_num [ARCamView.getDistanceToCamera, Vector3.sub, Vector3.length, exampleMath,
      ARCamView.new]
  have h2 : 0 < (ARCamView.new 100 0 0 (-10) 1).canvasHeight := by
    norm_num [ARCamView.new]
  have h3 : 0 < (ARCamView.new 100 0 0 (-10) 1).object.scale.x := by
    norm_num [ARCamView.new]
  have h4 : 0 < exampleMath.tan ((ARCamView.new 100 0 0 (-10) 1).camera.fov
      * (exampleMath.PI / 180) / 2) := by
    norm_num [exampleMath, ARCamView.new]
  have h5 : (ARCamView.new 100 0 0 (-10) 1).minAllowedScale
      ≤ (ARCamView.new 100 0 0 (-10) 1).maxAllowedScale := by
    norm_num [ARCamView.new]
  have h6 : (ARCamView.new 100 0 0 (-10) 1).maxAllowedScale ≠ 0 := by
    norm_num [ARCamView.new]
  exact ⟨h1, h2, h3, h4, h5, h6,
    ensureMinimumVisibility_idempotent exampleMath _ h1 h2 h3 h4 h5 h6⟩

/-! ## C8: the per-frame pass and the user scale -/

theorem render_billboard_form (v : ARCamView) :
    ∃ t l, (if v.billboardEnabled && v.object.visible then v._updateBillboard else v)
      = v.withBillboard t l := by
  split
  · unfold ARCamView._updateBillboard
    split
    · exact ⟨_, _, rfl⟩
    · exact ⟨_, _, rfl⟩
  · exact ⟨v._billboardTarget, v.object.lookAtTarget, rfl⟩

/-- The frame callback `_render()` is the billboard update followed, when the
object is visible and the pass is enabled, by `ensureMinimumVisibility()`. -/
theorem render_form (M : MathEnv) (v : ARCamView) :
    ∃ t l, v._render M =
      if v.object.visible && v.distanceScaleEnabled then
        (v.withBillboard t l).ensureMinimumVisibility M
      else some (v.withBillboard t l) := by
  obtain ⟨t, l, h⟩ := render_billboard_form v
  refine ⟨t, l, ?_⟩
  unfold ARCamView._render
  simp only [h]
  rfl

theorem ensureMinimumVisibility_userScale (M : MathEnv) (v v1 : ARCamView)
    (h : v.ensureMinimumVisibility M = some v1) : v1._userScale = v._userScale := by
  simp only [ARCamView.ensureMinimumVisibility, jsDiv, Option.bind_eq_bind,
    Option.pure_def, bind, pure] at h
  split at h
  · simp at h
  · simp only [Option.some_bind] at h
    split at h
    · simp at h
    · simp only [Option.some_bind] at h
      split at h
      · split at h
        · simp at h
        · simp only [Option.some_bind, Option.some.injEq] at h
          subst h
          rfl
      · simp only [Option.some.injEq] at h
        subst h
        rfl

theorem ensureMinimumVisibility_withBillboard (M : MathEnv) (v : ARCamView) (t : Vector3)
    (l : Option Vector3) (hd : v.getDistanceToCamera M ≠ 0)
    (ht : M.tan (v.camera.fov * (M.PI / 180) / 2) ≠ 0) :
    (v.withBillboard t l).ensureMinimumVisibility M =
      if v.projectedSize M v.object.scale.x < v.minVisibleSize then
        if v.projectedSize M v.object.scale.x = 0 then none
        else some ((v.withBillboard t l).enforceScaleLimits
          (some (v.minVisibleSize / v.projectedSize M v.object.scale.x * v.object.scale.x))).1
      else some (v.withBillboard t l) :=
  ensureMinimumVisibility_eq M (v.withBillboard t l) hd ht

theorem requiredScale_formula (M : MathEnv) (v : ARCamView)
    (hh : v.canvasHeight ≠ 0) (hs : v.object.scale.x ≠ 0) :
    v.minVisibleSize / v.projectedSize M v.object.scale.x * v.object.scale.x =
      v.minVisibleSize * v.getDistanceToCamera M
        * (2 * M.tan (v.camera.fov * (M.PI / 180) / 2)) / (3 * v.canvasHeight) := by
  unfold ARCamView.projectedSize
  generalize v.getDistanceToCamera M = d
  generalize M.tan (v.camera.fov * (M.PI / 180) / 2) = t
  generalize v.canvasHeight = H at hh ⊢
  generalize v.object.scale.x = sc at hs ⊢
  field_simp
  ring

/-- What the frame callback does to the two scales.  It never modifies
`_userScale`, and the object scale it leaves is not computed from `_userScale`.
When the object is hidden or the pass is disabled, and when the projected size
of the current object scale is at least `minVisibleSize`, the object scale stays
as earlier frames left it.  When the projected size is below `minVisibleSize`
(object visible, pass enabled, distance, tangent, screen height and current
scale nonzero), the pass commits `clamp(minVisibleSize * distance * 2 *
tan(fov / 2) / (3 * screenHeight), minAllowedScale, maxAllowedScale)` on all
three axes. -/
theorem render_scale_pass (M : MathEnv) (v : ARCamView) :
    (∀ v1, v._render M = some v1 → v1._userScale = v._userScale) ∧
    ((v.object.visible = false ∨ v.distanceScaleEnabled = false) →
      ∃ v1, v._render M = some v1 ∧ v1.object.scale = v.object.scale) ∧
    (v.object.visible = true → v.distanceScaleEnabled = true →
      v.getDistanceToCamera M ≠ 0 → M.tan (v.camera.fov * (M.PI / 180) / 2) ≠ 0 →
      (v.minVisibleSize ≤ v.projectedSize M v.object.scale.x →
        ∃ v1, v._render M = some v1 ∧ v1.object.scale = v.object.scale) ∧
      (v.projectedSize M v.object.scale.x < v.minVisibleSize →
        v.canvasHeight ≠ 0 → v.object.scale.x ≠ 0 →
        ∃ v1, v._render M = some v1 ∧
          v1.object.scale =
            ⟨clamp (v.minVisibleSize * v.getDistanceToCamera M
                * (2 * M.tan (v.camera.fov * (M.PI / 180) / 2)) / (3 * v.canvasHeight))
              v.minAllowedScale v.maxAllowedScale,
             clamp (v.minVisibleSize * v.getDistanceToCamera M
                * (2 * M.tan (v.camera.fov * (M.PI / 180) / 2)) / (3 * v.canvasHeight))
              v.minAllowedScale v.maxAllowedScale,
             clamp (v.minVisibleSize * v.getDistanceToCamera M
                * (2 * M.tan (v.camera.fov * (M.PI / 180) / 2)) / (3 * v.canvasHeight))
              v.minAllowedScale v.maxAllowedScale⟩)) := by
  obtain ⟨t, l, hr⟩ := render_form M v
  refine ⟨fun v1 h1 => ?_, fun hoff => ?_, fun hvis hen hd ht => ⟨fun hge => ?_, fun hlt hh hs => ?_⟩⟩
  · rw [hr] at h1
    split at h1
    · exact ensureMinimumVisibility_userScale M (v.withBillboard t l) v1 h1
    · simp only [Option.some.injEq] at h1
      subst h1
      rfl
  · refine ⟨v.withBillboard t l, ?_, rfl⟩
    rw [hr]
    rcases hoff with h | h <;> simp [h]
  · refine ⟨v.withBillboard t l, ?_, rfl⟩
    rw [hr, hvis, hen, ensureMinimumVisibility_withBillboard M v t l hd ht,
      if_neg (not_lt.mpr hge)]
    rfl
  · refine ⟨((v.withBillboard t l).enforceScaleLimits
      (some (v.minVisibleSize / v.projectedSize M v.object.scale.x * v.object.scale.x))).1,
      ?_, ?_⟩
    · rw [hr, hvis, hen, ensureMinimumVisibility_withBillboard M v t l hd ht, if_pos hlt,
        if_neg (projectedSize_ne_zero M v _ hd hh ht hs)]
      rfl
    · rw [requiredScale_formula M v hh hs]
      rfl

theorem nearView_distance :
    nearView.getDistanceToCamera exampleMath = 10 := by
  norm_num [ARCamView.getDistanceToCamera, Vector3.sub, Vector3.length, exampleMath,
    ARCamView.new, nearView]

theorem nearView_tan :
    exampleMath.tan (nearView.camera.fov * (exampleMath.PI / 180) / 2) = 76733 / 100000 := by
  norm_num [exampleMath, ARCamView.new, nearView]

/-- The frame callback where the floor is active: on a canvas 100 pixels high
the pass commits `100 * 10 * 2 * 0.76733 / 300`, whatever the earlier object
scale was. -/
theorem render_scale_pass_witness :
    smallCanvasView.object.visible = true ∧ smallCanvasView.distanceScaleEnabled = true ∧
    smallCanvasView.getDistanceToCamera exampleMath ≠ 0 ∧
    exampleMath.tan (smallCanvasView.camera.fov * (exampleMath.PI / 180) / 2) ≠ 0 ∧
    smallCanvasView.projectedSize exampleMath smallCanvasView.object.scale.x
      < smallCanvasView.minVisibleSize ∧
    smallCanvasView.canvasHeight ≠ 0 ∧ smallCanvasView.object.scale.x ≠ 0 ∧
    ∃ v1, smallCanvasView._render exampleMath = some v1 ∧
      v1.object.scale = ⟨76733 / 15000, 76733 / 15000, 76733 / 15000⟩ := by
  have hd : smallCanvasView.getDistanceToCamera exampleMath = 10 := nearView_distance
  have ht : exampleMath.tan (smallCanvasView.camera.fov * (exampleMath.PI / 180) / 2)
      = 76733 / 100000 := nearView_tan
  have h1 : smallCanvasView.object.visible = true := rfl
  have h2 : smallCanvasView.distanceScaleEnabled = true := rfl
  have h3 : smallCanvasView.getDistanceToCamera exampleMath ≠ 0 := by rw [hd]; norm_num
  have h4 : exampleMath.tan (smallCanvasView.camera.fov * (exampleMath.PI / 180) / 2) ≠ 0 := by
    rw [ht]; norm_num
  have h5 : smallCanvasView.projectedSize exampleMath smallCanvasView.object.scale.x
      < smallCanvasView.minVisibleSize := by
    rw [ARCamView.projectedSize, hd, ht]
    norm_num [smallCanvasView, nearView, ARCamView.new]
  have h6 : smallCanvasView.canvasHeight ≠ 0 := by
    norm_num [smallCanvasView]
  have h7 : smallCanvasView.object.scale.x ≠ 0 := by
    norm_num [smallCanvasView, nearView, ARCamView.new]
  obtain ⟨v1, hv1, hsc⟩ :=
    ((render_scale_pass exampleMath smallCanvasView).2.2 h1 h2 h3 h4).2 h5 h6 h7
  refine ⟨h1, h2, h3, h4, h5, h6, h7, v1, hv1, ?_⟩
  rw [hsc, hd, ht]
  norm_num [smallCanvasView, nearView, ARCamView.new, clamp]

/-- Two states that differ only in the scale earlier frames left.  The states
`nearView` and `nearViewScaled` agree on `_userScale` (1), on the
camera-to-object distance (10) and on the whole configuration, and differ only
in the object scale (1 and 2).  Both project above the floor, so the pass leaves
the scales 1 and 2 as they are. -/
theorem render_keeps_earlier_scale :
    nearView._userScale = nearViewScaled._userScale ∧
    nearView.getDistanceToCamera exampleMath
      = nearViewScaled.getDistanceToCamera exampleMath ∧
    nearViewScaled = { nearView with object := { nearView.object with scale := ⟨2, 2, 2⟩ } } ∧
    ∃ a b, nearView._render exampleMath = some a ∧
      nearViewScaled._render exampleMath = some b ∧
      a.object.scale = ⟨1, 1, 1⟩ ∧ b.object.scale = ⟨2, 2, 2⟩ ∧
      a.object.scale ≠ b.object.scale := by
  refine ⟨rfl, rfl, rfl, ?_⟩
  have hd : nearView.getDistanceToCamera exampleMath ≠ 0 := by
    rw [nearView_distance]; norm_num
  have ht : exampleMath.tan (nearView.camera.fov * (exampleMath.PI / 180) / 2) ≠ 0 := by
    rw [nearView_tan]; norm_num
  have hpa : ¬ nearView.projectedSize exampleMath nearView.object.scale.x
      < nearView.minVisibleSize := by
    rw [ARCamView.projectedSize, nearView_distance, nearView_tan]
    norm_num [nearView, ARCamView.new]
  have hpb : ¬ nearViewScaled.projectedSize exampleMath nearViewScaled.object.scale.x
      < nearViewScaled.minVisibleSize := by
    have e1 : nearViewScaled.getDistanceToCamera exampleMath = 10 := nearView_distance
    have e2 : exampleMath.tan (nearViewScaled.camera.fov * (exampleMath.PI / 180) / 2)
        = 76733 / 100000 := nearView_tan
    rw [ARCamView.projectedSize, e1, e2]
    norm_num [nearViewScaled, nearView, ARCamView.new]
  obtain ⟨t, l, hr⟩ := render_form exampleMath nearView
  obtain ⟨t2, l2, hr2⟩ := render_form exampleMath nearViewScaled
  refine ⟨nearView.withBillboard t l, nearViewScaled.withBillboard t2 l2, ?_, ?_, ?_, ?_, ?_⟩
  · rw [hr, ensureMinimumVisibility_withBillboard exampleMath nearView t l hd ht, if_neg hpa]
    rfl
  · rw [hr2, ensureMinimumVisibility_withBillboard exampleMath nearViewScaled t2 l2 hd ht,
      if_neg hpb]
    rfl
  · rfl
  · rfl
  · intro h
    have hx : (1 : ℚ) = 2 := congrArg Vector3.x h
    norm_num at hx

theorem farPoseView_render : farPoseView._render exampleMath = some farFrameView := by
  have hd : farPoseView.getDistanceToCamera exampleMath = 20 := by
    norm_num [ARCamView.getDistanceToCamera, Vector3.sub, Vector3.length, exampleMath,
      ARCamView.new, farPoseView, ARCamView.updateCameraPose, ARCamView.playVideo]
  have ht : exampleMath.tan (farPoseView.camera.fov * (exampleMath.PI / 180) / 2)
      = 76733 / 100000 := by
    norm_num [exampleMath, ARCamView.new, farPoseView, ARCamView.updateCameraPose,
      ARCamView.playVideo]
  have hb : (if farPoseView.billboardEnabled && farPoseView.object.visible
      then farPoseView._updateBillboard else farPoseView)
      = farPoseView.withBillboard ⟨0, 0, 10⟩ (some ⟨0, 0, 10⟩) := rfl
  have hr : farPoseView._render exampleMath
      = (farPoseView.withBillboard ⟨0, 0, 10⟩ (some ⟨0, 0, 10⟩)).ensureMinimumVisibility
          exampleMath := by
    unfold ARCamView._render
    rw [hb]
    rfl
  have hp : farPoseView.projectedSize exampleMath farPoseView.object.scale.x
      = 750000 / 76733 := by
    rw [ARCamView.projectedSize, hd, ht]
    norm_num [ARCamView.new, farPoseView, ARCamView.updateCameraPose, ARCamView.playVideo]
  have hc : clamp (farPoseView.minVisibleSize / (750000 / 76733) * farPoseView.object.scale.x)
      (farPoseView.withBillboard ⟨0, 0, 10⟩ (some ⟨0, 0, 10⟩)).minAllowedScale
      (farPoseView.withBillboard ⟨0, 0, 10⟩ (some ⟨0, 0, 10⟩)).maxAllowedScale = 10 := by
    norm_num [ARCamView.new, farPoseView, ARCamView.updateCameraPose, ARCamView.playVideo,
      ARCamView.withBillboard, clamp]
  rw [hr, ensureMinimumVisibility_withBillboard exampleMath farPoseView _ _
    (by rw [hd]; norm_num) (by rw [ht]; norm_num), hp,
    if_pos (by norm_num [ARCamView.new, farPoseView, ARCamView.updateCameraPose,
      ARCamView.playVideo]), if_neg (by norm_num)]
  simp only [ARCamView.enforceScaleLimits, Vector3.set]
  rw [hc]
  rfl

theorem nearPose_distance :
    (farFrameView.updateCameraPose (fun p : Vector3 => p) true ⟨0, 0, 0⟩).getDistanceToCamera
      exampleMath = 10 := by
  norm_num [ARCamView.getDistanceToCamera, Vector3.sub, Vector3.length, exampleMath,
    ARCamView.new, farFrameView, farPoseView, ARCamView.updateCameraPose, ARCamView.playVideo]

theorem nearPose_render :
    (farFrameView.updateCameraPose (fun p : Vector3 => p) true ⟨0, 0, 0⟩)._render exampleMath
      = some nearFrameView := by
  have ht : exampleMath.tan
      ((farFrameView.updateCameraPose (fun p : Vector3 => p) true ⟨0, 0, 0⟩).camera.fov
        * (exampleMath.PI / 180) / 2) = 76733 / 100000 := by
    norm_num [exampleMath, ARCamView.new, farFrameView, farPoseView,
      ARCamView.updateCameraPose, ARCamView.playVideo]
  have hb : (if (farFrameView.updateCameraPose (fun p : Vector3 => p) true
        ⟨0, 0, 0⟩).billboardEnabled
      && (farFrameView.updateCameraPose (fun p : Vector3 => p) true ⟨0, 0, 0⟩).object.visible
      then (farFrameView.updateCameraPose (fun p : Vector3 => p) true ⟨0, 0, 0⟩)._updateBillboard
      else farFrameView.updateCameraPose (fun p : Vector3 => p) true ⟨0, 0, 0⟩)
      = (farFrameView.updateCameraPose (fun p : Vector3 => p) true ⟨0, 0, 0⟩).withBillboard
          ⟨0, 0, 0⟩ (some ⟨0, 0, 0⟩) := rfl
  have hr : (farFrameView.updateCameraPose (fun p : Vector3 => p) true ⟨0, 0, 0⟩)._render
      exampleMath
      = ((farFrameView.updateCameraPose (fun p : Vector3 => p) true ⟨0, 0, 0⟩).withBillboard
          ⟨0, 0, 0⟩ (some ⟨0, 0, 0⟩)).ensureMinimumVisibility exampleMath := by
    unfold ARCamView._render
    rw [hb]
    rfl
  have hp : ¬ (farFrameView.updateCameraPose (fun p : Vector3 => p) true ⟨0, 0, 0⟩).projectedSize
      exampleMath
      (farFrameView.updateCameraPose (fun p : Vector3 => p) true ⟨0, 0, 0⟩).object.scale.x
      < (farFrameView.updateCameraPose (fun p : Vector3 => p) true ⟨0, 0, 0⟩).minVisibleSize := by
    rw [ARCamView.projectedSize, nearPose_distance, ht]
    norm_num [ARCamView.new, farFrameView, farPoseView, ARCamView.updateCameraPose,
      ARCamView.playVideo]
  rw [hr, ensureMinimumVisibility_withBillboard exampleMath _ _ _
    (by rw [nearPose_distance]; norm_num) (by rw [ht]; norm_num), if_neg hp]
  rfl

/-- C8 fails on the code: the scale the floor commits replaces the user scale
for good.  The default view on a canvas 100 pixels high has `_userScale = 1`.
With the camera at distance 20 a frame commits the object scale 10 (the floor,
clamped).  The camera comes back to distance 10; the next frame leaves the
object scale 10, while `_userScale` is still 1, whose clamp is 1, and the
distance compensation from `_userScale`, the method that the frame never calls,
would commit 1.  A wheel tick then takes the inflated scale as its base and
stores `_userScale = 5`. -/
theorem floor_scale_replaces_user_scale :
    farPoseView._userScale = 1 ∧ farPoseView.object.scale = ⟨1, 1, 1⟩ ∧
    farPoseView._render exampleMath = some farFrameView ∧
    farFrameView.object.scale = ⟨10, 10, 10⟩ ∧
    (farFrameView.updateCameraPose (fun p : Vector3 => p) true ⟨0, 0, 0⟩)._render exampleMath
      = some nearFrameView ∧
    nearFrameView.getDistanceToCamera exampleMath = 10 ∧
    nearFrameView.object.scale = ⟨10, 10, 10⟩ ∧ nearFrameView._userScale = 1 ∧
    clamp nearFrameView._userScale nearFrameView.minAllowedScale nearFrameView.maxAllowedScale
      = 1 ∧
    (nearFrameView.applyDistanceScaleCompensation exampleMath).map (fun v => v.object.scale)
      = some ⟨1, 1, 1⟩ ∧
    (onWheel (State.init nearFrameView) (-1)).view._userScale = 5 := by
  have hd : nearFrameView.getDistanceToCamera exampleMath = 10 := nearPose_distance
  refine ⟨rfl, rfl, farPoseView_render, rfl, nearPose_render, hd, rfl, rfl, ?_, ?_, ?_⟩
  · norm_num [nearFrameView, farFrameView, farPoseView, ARCamView.updateCameraPose,
      ARCamView.playVideo, ARCamView.new, clamp]
  · simp only [ARCamView.applyDistanceScaleCompensation, hd]
    norm_num [nearFrameView, farFrameView, farPoseView, ARCamView.updateCameraPose,
      ARCamView.playVideo, ARCamView.new, jsDiv, ARCamView.enforceScaleLimits, clamp,
      Vector3.set]
  · norm_num [onWheel, State.init, nearFrameView, farFrameView, farPoseView,
      ARCamView.updateCameraPose, ARCamView.playVideo, ARCamView.new,
      ARCamView.enforceScaleLimits, clamp]

/-! ## C9: distance compensation -/

/-- C9 (amended). With `distanceScaleEnabled = false`,
`applyDistanceScaleCompensation()` changes nothing.  With
`distanceScaleEnabled = true` and `baseDistance > 0` it commits, on all three
axes, `clamp(base * max(0.5, 1 + (distance / baseDistance - 1) *
distanceScaleFactor), minAllowedScale, maxAllowedScale)` and changes nothing
else, `_userScale` included, where `base` is `_userScale` for every nonzero
`_userScale` and `1` when `_userScale` is `0`. -/
theorem applyDistanceScaleCompensation_spec (M : MathEnv) (v : ARCamView) :
    (v.distanceScaleEnabled = false → v.applyDistanceScaleCompensation M = some v) ∧
    (v.distanceScaleEnabled = true → 0 < v.baseDistance →
      ∃ c, v.applyDistanceScaleCompensation M =
          some { v with object := { v.object with scale := ⟨c, c, c⟩ } } ∧
        (v._userScale ≠ 0 →
          c = clamp (v._userScale * max (1 / 2)
                (1 + (v.getDistanceToCamera M / v.baseDistance - 1) * v.distanceScaleFactor))
              v.minAllowedScale v.maxAllowedScale) ∧
        (v._userScale = 0 →
          c = clamp (1 * max (1 / 2)
                (1 + (v.getDistanceToCamera M / v.baseDistance - 1) * v.distanceScaleFactor))
              v.minAllowedScale v.maxAllowedScale)) := by
  refine ⟨fun h => ?_, fun h hb => ?_⟩
  · simp [ARCamView.applyDistanceScaleCompensation, h]
  · refine ⟨clamp ((if v._userScale = 0 then 1 else v._userScale) * max (1 / 2)
        (1 + (v.getDistanceToCamera M / v.baseDistance - 1) * v.distanceScaleFactor))
        v.minAllowedScale v.maxAllowedScale, ?_, fun hne => ?_, fun h0 => ?_⟩
    · have hoff : ¬ ((!v.distanceScaleEnabled) = true) := by simp [h]
      unfold ARCamView.applyDistanceScaleCompensation
      rw [if_neg hoff]
      simp only [jsDiv, hb.ne', if_false, Option.bind_eq_bind, Option.some_bind,
        Option.pure_def, bind, pure]
      rfl
    · rw [if_neg hne]
    · rw [if_pos h0]

/-- C9, at the default configuration with compensation on and the object at
twice the base distance: `_userScale = 1` is nonzero and the committed scale is
`1 * max(0.5, 1 + (20 / 10 - 1) * 0.5) = 1.5`. -/
theorem applyDistanceScaleCompensation_spec_witness :
    ({ ARCamView.new 480 0 0 (-20) 1 with distanceScaleEnabled := true } :
        ARCamView).distanceScaleEnabled = true ∧
    0 < ({ ARCamView.new 480 0 0 (-20) 1 with distanceScaleEnabled := true } :
        ARCamView).baseDistance ∧
    ∃ c, ({ ARCamView.new 480 0 0 (-20) 1 with distanceScaleEnabled := true } :
        ARCamView).applyDistanceScaleCompensation exampleMath =
        some { ({ ARCamView.new 480 0 0 (-20) 1 with distanceScaleEnabled := true } :
          ARCamView) with object := { (ARCamView.new 480 0 0 (-20) 1).object with
            scale := ⟨c, c, c⟩ } } ∧ c = 3 / 2 := by
  have hb : 0 < ({ ARCamView.new 480 0 0 (-20) 1 with distanceScaleEnabled := true } :
      ARCamView).baseDistance := by
    norm_num [ARCamView.new]
  obtain ⟨c, hc, hne, -⟩ := (applyDistanceScaleCompensation_spec exampleMath
    { ARCamView.new 480 0 0 (-20) 1 with distanceScaleEnabled := true }).2 rfl hb
  refine ⟨rfl, hb, c, hc, ?_⟩
  rw [hne (by norm_num [ARCamView.new])]
  norm_num [ARCamView.getDistanceToCamera, Vector3.sub, Vector3.length, exampleMath,
    ARCamView.new, clamp]

/-- C9 fails as stated at `_userScale = 0`.  On `zeroScaleView` (base distance
10, distance 10, factor 0.5, hard range `[0.1, 10]`) the method takes the base
scale `1` in place of the zero `_userScale` and commits the scale `1`, whereas
`clamp(_userScale * max(0.5, compensation), 0.1, 10)` is `0.1`. -/
theorem distance_compensation_zero_userScale_counterexample :
    zeroScaleView.distanceScaleEnabled = true ∧ 0 < zeroScaleView.baseDistance ∧
    zeroScaleView._userScale = 0 ∧
    zeroScaleView.applyDistanceScaleCompensation exampleMath =
      some { zeroScaleView with object := { zeroScaleView.object with scale := ⟨1, 1, 1⟩ } } ∧
    clamp (zeroScaleView._userScale * max (1 / 2)
        (1 + (zeroScaleView.getDistanceToCamera exampleMath / zeroScaleView.baseDistance - 1)
          * zeroScaleView.distanceScaleFactor))
      zeroScaleView.minAllowedScale zeroScaleView.maxAllowedScale = 1 / 10 := by
  refine ⟨rfl, by norm_num [zeroScaleView, ARCamView.new], rfl, ?_, ?_⟩
  · have hd : zeroScaleView.getDistanceToCamera exampleMath = 10 := by
      norm_num [ARCamView.getDistanceToCamera, Vector3.sub, Vector3.length, exampleMath,
        ARCamView.new, zeroScaleView]
    simp only [ARCamView.applyDistanceScaleCompensation, hd]
    norm_num [zeroScaleView, ARCamView.new, jsDiv, ARCamView.enforceScaleLimits, clamp,
      Vector3.set]
  · norm_num [zeroScaleView, ARCamView.new, clamp]

/-! ## C10: dragging -/

/-- C10. While dragging with a selected target, a single-touch `touchmove`
(after the long-press fired: `isDrag`) and a `mousemove` (`mouseDown`) with
screen delta `(dx, dy)` from `startPos` move the target to
`(x + dx * depth, y - dy * depth, z)` with
`depth = (camera.position.z - target.position.z) * MOVE_SENSITIVITY`, without
any clamp, and change no other field of the view (`z`, the object scale and
`_userScale` in particular).  A single-touch `touchmove` while `isDrag` is false
changes nothing at all. -/
theorem drag_move_spec (M : MathEnv) (s : State) (t0 : Touch) (mx my : ℚ) :
    (s.touch.isDrag = true → s.touch.selected = true →
      ∃ s1, step M s (Event.touchmove [t0]) = some s1 ∧
        s1.view.object.position =
          ⟨s.view.object.position.x + (t0.clientX - s.touch.startPos.1) *
              ((s.view.camera.position.z - s.view.object.position.z) * s.view.MOVE_SENSITIVITY),
           s.view.object.position.y - (t0.clientY - s.touch.startPos.2) *
              ((s.view.camera.position.z - s.view.object.position.z) * s.view.MOVE_SENSITIVITY),
           s.view.object.position.z⟩ ∧
        s1.view.object.scale = s.view.object.scale ∧
        s1.view._userScale = s.view._userScale ∧
        s1.view = { s.view with object := { s.view.object with
          position := s1.view.object.position } }) ∧
    (s.touch.mouseDown = true → s.touch.selected = true →
      ∃ s1, step M s (Event.mousemove mx my) = some s1 ∧
        s1.view.object.position =
          ⟨s.view.object.position.x + (mx - s.touch.startPos.1) *
              ((s.view.camera.position.z - s.view.object.position.z) * s.view.MOVE_SENSITIVITY),
           s.view.object.position.y - (my - s.touch.startPos.2) *
              ((s.view.camera.position.z - s.view.object.position.z) * s.view.MOVE_SENSITIVITY),
           s.view.object.position.z⟩ ∧
        s1.view.object.scale = s.view.object.scale ∧
        s1.view._userScale = s.view._userScale ∧
        s1.view = { s.view with object := { s.view.object with
          position := s1.view.object.position } }) ∧
    (s.touch.isDrag = false → step M s (Event.touchmove [t0]) = some s) := by
  refine ⟨fun hd hsel => ?_, fun hm hsel => ?_, fun hd => ?_⟩
  · refine ⟨{ s with
        view := { s.view with object := { s.view.object with
          position :=
            ⟨s.view.object.position.x + (t0.clientX - s.touch.startPos.1) *
              ((s.view.camera.position.z - s.view.object.position.z)
                * s.view.MOVE_SENSITIVITY),
             s.view.object.position.y - (t0.clientY - s.touch.startPos.2) *
              ((s.view.camera.position.z - s.view.object.position.z)
                * s.view.MOVE_SENSITIVITY),
             s.view.object.position.z⟩ } }
        touch := { s.touch with startPos := (t0.clientX, t0.clientY) } },
      ?_, rfl, rfl, rfl, rfl⟩
    simp only [step, onTouchMove, List.length_cons, List.length_nil, hd, hsel]
    simp
  · refine ⟨onMouseMove s mx my, rfl, ?_, ?_, ?_, ?_⟩ <;>
      simp [onMouseMove, hm, hsel]
  · simp only [step, onTouchMove, List.length_cons, List.length_nil, hd]
    simp

/-- C10, on the default view: after a press at `(10, 10)` and the long-press
timer, a move to `(110, 30)` shifts the target from `(0, 0, -10)` by
`100 * 0.017` to the right and by `20 * 0.017` down. -/
theorem drag_move_spec_witness :
    run exampleMath (State.init (ARCamView.new 480 0 0 (-10) 1))
      [Event.touchstart [⟨10, 10⟩] true, Event.timeout 1] = some draggingState ∧
    draggingState.touch.isDrag = true ∧ draggingState.touch.selected = true ∧
    ∃ s1, step exampleMath draggingState (Event.touchmove [⟨110, 30⟩]) = some s1 ∧
      s1.view.object.position = ⟨17 / 10, -17 / 50, -10⟩ := by
  have h1 : draggingState.touch.isDrag = true := rfl
  have h2 : draggingState.touch.selected = true := rfl
  obtain ⟨s1, hs1, hpos, -, -, -⟩ :=
    (drag_move_spec exampleMath draggingState ⟨110, 30⟩ 0 0).1 h1 h2
  refine ⟨?_, h1, h2, s1, hs1, ?_⟩
  · simp [run, step, onTouchStart, onLongPress, State.init, draggingState]
  · rw [hpos]
    norm_num [draggingState, onLongPress, onTouchStart, State.init, ARCamView.new]

/-! ## C11: `setBillboardMode` -/

theorem setBillboardMode_invariant (v : ARCamView) (mode : JSValue)
    (h : v.billboardEnabled = (v.billboardMode != "none")) :
    (v.setBillboardMode mode).billboardEnabled
      = ((v.setBillboardMode mode).billboardMode != "none") := by
  unfold ARCamView.setBillboardMode
  split
  · split
    · rfl
    · exact h
  · exact h

theorem setBillboardModes_invariant (modes : List JSValue) (v : ARCamView)
    (h : v.billboardEnabled = (v.billboardMode != "none")) :
    (v.setBillboardModes modes).billboardEnabled
      = ((v.setBillboardModes modes).billboardMode != "none") := by
  induction modes generalizing v with
  | nil => exact h
  | cons m ms ih => exact ih (v.setBillboardMode m) (setBillboardMode_invariant v m h)

/-- The visibility pass writes neither the orientation of the object nor the
scratch vector of the billboard. -/
theorem ensureMinimumVisibility_orientation (M : MathEnv) (v v1 : ARCamView)
    (h : v.ensureMinimumVisibility M = some v1) :
    v1.object.lookAtTarget = v.object.lookAtTarget ∧
      v1._billboardTarget = v._billboardTarget ∧
      v1.object.position = v.object.position := by
  simp only [ARCamView.ensureMinimumVisibility, jsDiv, Option.bind_eq_bind,
    Option.pure_def, bind, pure] at h
  split at h
  · simp at h
  · simp only [Option.some_bind] at h
    split at h
    · simp at h
    · simp only [Option.some_bind] at h
      split at h
      · split at h
        · simp at h
        · simp only [Option.some_bind, Option.some.injEq] at h
          subst h
          exact ⟨rfl, rfl, rfl⟩
      · simp only [Option.some.injEq] at h
        subst h
        exact ⟨rfl, rfl, rfl⟩

/-- C11. For a valid mode (`'spherical'`, `'cylindrical'`, `'none'`)
`setBillboardMode` sets `billboardMode = mode` and
`billboardEnabled = (mode != 'none')` and nothing else; for every other value,
string or not, it returns normally and leaves the whole state unchanged.
Consequently `billboardEnabled = (billboardMode != 'none')` holds after any
sequence of `setBillboardMode` calls from the state the constructor builds; and
in a state with that relation and `billboardMode = 'none'` a frame leaves the
orientation of the object untouched (and the whole state when the visibility
pass does not run). -/
theorem setBillboardMode_spec (M : MathEnv) (v v1 : ARCamView) (m : String) (mode : JSValue)
    (modes : List JSValue) (canvasHeight x y z scale : ℚ) :
    ((m = "spherical" ∨ m = "cylindrical" ∨ m = "none") →
      v.setBillboardMode (JSValue.str m)
        = { v with billboardMode := m, billboardEnabled := (m != "none") }) ∧
    ((∀ n, mode = JSValue.str n → ¬ (n = "spherical" ∨ n = "cylindrical" ∨ n = "none")) →
      v.setBillboardMode mode = v) ∧
    (((ARCamView.new canvasHeight x y z scale).setBillboardModes modes).billboardEnabled
      = (((ARCamView.new canvasHeight x y z scale).setBillboardModes modes).billboardMode
          != "none")) ∧
    (v.billboardMode = "none" → v.billboardEnabled = (v.billboardMode != "none") →
      (v._render M = some v1 →
        v1.object.lookAtTarget = v.object.lookAtTarget ∧
        v1._billboardTarget = v._billboardTarget) ∧
      ((v.object.visible = false ∨ v.distanceScaleEnabled = false) →
        v._render M = some v)) := by
  refine ⟨fun hm => ?_, fun hn => ?_, ?_, fun hnone hinv => ?_⟩
  · simp only [ARCamView.setBillboardMode, hm, if_true]
  · cases mode with
    | str n =>
      simp only [ARCamView.setBillboardMode, hn n rfl, if_false]
    | num q => rfl
    | bool b => rfl
    | null => rfl
    | undefined => rfl
  · exact setBillboardModes_invariant modes _ rfl
  · have hoff : v.billboardEnabled = false := by
      rw [hinv, hnone]
      rfl
    have hr : v._render M =
        if v.object.visible && v.distanceScaleEnabled then v.ensureMinimumVisibility M
        else some v := by
      simp only [ARCamView._render, hoff, Bool.false_and, Bool.false_eq_true, if_false]
    refine ⟨fun h1 => ?_, fun hskip => ?_⟩
    · rw [hr] at h1
      split at h1
      · obtain ⟨h2, h3, -⟩ := ensureMinimumVisibility_orientation M v v1 h1
        exact ⟨h2, h3⟩
      · simp only [Option.some.injEq] at h1
        subst h1
        exact ⟨rfl, rfl⟩
    · rw [hr]
      rcases hskip with h | h <;> simp [h]

/-- C11, on the default view after `setBillboardMode('none')` and a camera pose:
`'cylindrical'` is accepted, `'flat'` is ignored, and a frame changes nothing. -/
theorem setBillboardMode_spec_witness :
    ("cylindrical" = "spherical" ∨ "cylindrical" = "cylindrical" ∨ "cylindrical" = "none") ∧
    (∀ n, JSValue.str "flat" = JSValue.str n →
      ¬ (n = "spherical" ∨ n = "cylindrical" ∨ n = "none")) ∧
    noBillboardView.billboardMode = "none" ∧
    noBillboardView.billboardEnabled = (noBillboardView.billboardMode != "none") ∧
    (noBillboardView.object.visible = false ∨ noBillboardView.distanceScaleEnabled = false) ∧
    (noBillboardView.setBillboardMode (JSValue.str "cylindrical")).billboardEnabled = true ∧
    noBillboardView.setBillboardMode (JSValue.str "flat") = noBillboardView ∧
    noBillboardView._render exampleMath = some noBillboardView := by
  have h1 : "cylindrical" = "spherical" ∨ "cylindrical" = "cylindrical"
      ∨ "cylindrical" = "none" := Or.inr (Or.inl rfl)
  have h2 : ∀ n, JSValue.str "flat" = JSValue.str n →
      ¬ (n = "spherical" ∨ n = "cylindrical" ∨ n = "none") := by
    intro n hn
    have hn1 : "flat" = n := JSValue.str.inj hn
    subst hn1
    decide
  have h3 : noBillboardView.billboardMode = "none" := rfl
  have h4 : noBillboardView.billboardEnabled = (noBillboardView.billboardMode != "none") := rfl
  have h5 : noBillboardView.object.visible = false ∨ noBillboardView.distanceScaleEnabled = false :=
    Or.inr rfl
  have key := setBillboardMode_spec exampleMath noBillboardView noBillboardView "cylindrical"
    (JSValue.str "flat") [] 480 0 0 (-10) 1
  refine ⟨h1, h2, h3, h4, h5, ?_, key.2.1 h2, (key.2.2.2 h3 h4).2 h5⟩
  rw [key.1 h1]
  rfl

/-! ## C13: tracking lost and regained -/

/-- C13. For every state of the controller, `lostCamera()` sets
`object.visible = false`, and `updateCameraPose(pose)`, right after it or in any
other state, sets `object.visible = true`.  Neither call changes the gesture
state (`isDrag`, `isPinch`, `isLongPress`, `selected` and the other handler
variables, the pending timers), the position of the object, its scale or
`_userScale`; `lostCamera()` changes no field but `visible`, so it does not
pause the video. -/
theorem lostCamera_updateCameraPose_spec {Pose : Type} (applyPose : Pose → Vector3)
    (started : Bool) (pose : Pose) (s : State) :
    s.lostCamera.view.object.visible = false ∧
    (s.lostCamera.updateCameraPose applyPose started pose).view.object.visible = true ∧
    (s.updateCameraPose applyPose started pose).view.object.visible = true ∧
    (s.lostCamera.touch = s.touch ∧ s.lostCamera.timers = s.timers ∧
      s.lostCamera.nextTimer = s.nextTimer) ∧
    ((s.updateCameraPose applyPose started pose).touch = s.touch ∧
      (s.updateCameraPose applyPose started pose).timers = s.timers ∧
      (s.updateCameraPose applyPose started pose).nextTimer = s.nextTimer) ∧
    (s.lostCamera.view.object.position = s.view.object.position ∧
      s.lostCamera.view.object.scale = s.view.object.scale ∧
      s.lostCamera.view._userScale = s.view._userScale) ∧
    ((s.updateCameraPose applyPose started pose).view.object.position = s.view.object.position ∧
      (s.updateCameraPose applyPose started pose).view.object.scale = s.view.object.scale ∧
      (s.updateCameraPose applyPose started pose).view._userScale = s.view._userScale) ∧
    s.lostCamera.view = { s.view with object := { s.view.object with visible := false } } ∧
    s.lostCamera.view.videoPaused = s.view.videoPaused := by
  have hview : ∀ w : ARCamView,
      (w.updateCameraPose applyPose started pose).object.visible = true ∧
      (w.updateCameraPose applyPose started pose).object.position = w.object.position ∧
      (w.updateCameraPose applyPose started pose).object.scale = w.object.scale ∧
      (w.updateCameraPose applyPose started pose)._userScale = w._userScale := by
    intro w
    cases started <;> cases hp : w.videoPaused <;>
      simp [ARCamView.updateCameraPose, ARCamView.playVideo, hp]
  obtain ⟨ha, hb, hc, hd⟩ := hview s.view
  exact ⟨rfl, (hview s.lostCamera.view).1, ha, ⟨rfl, rfl, rfl⟩, ⟨rfl, rfl, rfl⟩,
    ⟨rfl, rfl, rfl⟩, ⟨hb, hc, hd⟩, rfl, rfl⟩

/-! ## C12: the billboard orientation -/

theorem normalize_eq (M : MathEnv) (v : Vector3) :
    v.normalize M = ⟨v.x * v.normFactor M, v.y * v.normFactor M, v.z * v.normFactor M⟩ := rfl

theorem normFactor_ne_zero (M : MathEnv) (v : Vector3) : v.normFactor M ≠ 0 := by
  unfold Vector3.normFactor
  split
  · norm_num
  · rename_i h
    exact one_div_ne_zero h

theorem normFactor_pos (M : MathEnv) (v : Vector3) (h : 0 ≤ v.length M) :
    0 < v.normFactor M := by
  unfold Vector3.normFactor
  split
  · norm_num
  · rename_i hne
    exact one_div_pos.mpr (lt_of_le_of_ne h (Ne.symm hne))

/-- The method `Matrix4.lookAt` when `up` and the normalised `z` are not
parallel: no nudge is applied. -/
theorem lookAt_regular (M : MathEnv) (eye target up z1 : Vector3)
    (hz : z1 = if (eye.sub target).lengthSq = 0 then { eye.sub target with z := 1 }
      else eye.sub target)
    (hx : (up.cross (z1.normalize M)).lengthSq ≠ 0) :
    Matrix4.lookAt M eye target up =
      ⟨(up.cross (z1.normalize M)).normalize M,
       (z1.normalize M).cross ((up.cross (z1.normalize M)).normalize M),
       z1.normalize M⟩ := by
  subst hz
  simp only [Matrix4.lookAt, if_neg hx]

theorem up_cross_lengthSq_ne_zero (M : MathEnv) (z1 : Vector3)
    (hne : z1.x ≠ 0 ∨ z1.z ≠ 0) :
    ((⟨0, 1, 0⟩ : Vector3).cross (z1.normalize M)).lengthSq ≠ 0 := by
  have hk := normFactor_ne_zero M z1
  rw [normalize_eq]
  simp only [Vector3.cross, Vector3.lengthSq]
  intro h
  have h2 : (z1.z * z1.normFactor M) * (z1.z * z1.normFactor M)
      + (z1.x * z1.normFactor M) * (z1.x * z1.normFactor M) = 0 := by
    linarith
  obtain ⟨ha, hb⟩ := mul_self_add_mul_self_eq_zero.mp h2
  rcases hne with h3 | h3
  · exact (mul_ne_zero h3 hk) hb
  · exact (mul_ne_zero h3 hk) ha

/-- The up axis that `lookAt` gives when the target is level with the object:
a nonzero multiple of world-up, positive when the square root is not negative. -/
theorem lookAt_level_target (M : MathEnv) (p t : Vector3) (hy : t.y = p.y) :
    ∃ c, (Matrix4.lookAt M t p ⟨0, 1, 0⟩).yAxis = ⟨0, c, 0⟩ ∧ c ≠ 0 ∧
      ((∀ q, 0 ≤ q → 0 ≤ M.sqrt q) → 0 < c) := by
  obtain ⟨z1, hz⟩ : ∃ z1 : Vector3, z1 = if (t.sub p).lengthSq = 0
      then { t.sub p with z := 1 } else t.sub p := ⟨_, rfl⟩
  have hy0 : (t.sub p).y = 0 := by simp [Vector3.sub, hy]
  have hy1 : z1.y = 0 := by
    rw [hz]
    split
    · exact hy0
    · exact hy0
  have hne : z1.x ≠ 0 ∨ z1.z ≠ 0 := by
    rw [hz]
    split
    · right
      norm_num
    · rename_i hl
      by_contra hcon
      push_neg at hcon
      apply hl
      simp only [Vector3.lengthSq, hcon.1, hcon.2, hy0]
      norm_num
  have hx := up_cross_lengthSq_ne_zero M z1 hne
  rw [lookAt_regular M t p ⟨0, 1, 0⟩ z1 hz hx]
  have hk := normFactor_ne_zero M z1
  have hk2 := normFactor_ne_zero M ((⟨0, 1, 0⟩ : Vector3).cross (z1.normalize M))
  have hsq : 0 < (z1.z * z1.normFactor M) * (z1.z * z1.normFactor M)
      + (z1.x * z1.normFactor M) * (z1.x * z1.normFactor M) := by
    rcases hne with h3 | h3
    · have := mul_self_pos.mpr (mul_ne_zero h3 hk)
      have := mul_self_nonneg (z1.z * z1.normFactor M)
      linarith
    · have := mul_self_pos.mpr (mul_ne_zero h3 hk)
      have := mul_self_nonneg (z1.x * z1.normFactor M)
      linarith
  have hcx : ((⟨0, 1, 0⟩ : Vector3).cross (z1.normalize M)).x = z1.z * z1.normFactor M := by
    simp [Vector3.cross, normalize_eq]
  have hcy : ((⟨0, 1, 0⟩ : Vector3).cross (z1.normalize M)).y = 0 := by
    simp [Vector3.cross, normalize_eq]
  have hcz : ((⟨0, 1, 0⟩ : Vector3).cross (z1.normalize M)).z
      = -(z1.x * z1.normFactor M) := by
    simp [Vector3.cross, normalize_eq]
  refine ⟨((z1.z * z1.normFactor M) * (z1.z * z1.normFactor M)
      + (z1.x * z1.normFactor M) * (z1.x * z1.normFactor M))
      * ((⟨0, 1, 0⟩ : Vector3).cross (z1.normalize M)).normFactor M, ?_, ?_, ?_⟩
  · rw [normalize_eq M ((⟨0, 1, 0⟩ : Vector3).cross (z1.normalize M)), hcx, hcy, hcz]
    generalize ((⟨0, 1, 0⟩ : Vector3).cross (z1.normalize M)).normFactor M = k2
    simp only [normalize_eq, Vector3.cross, hy1]
    congr 1 <;> ring
  · exact mul_ne_zero hsq.ne' hk2
  · intro hs
    exact mul_pos hsq (normFactor_pos M _ (hs _
      (add_nonneg (add_nonneg (mul_self_nonneg _) (mul_self_nonneg _)) (mul_self_nonneg _))))

theorem lengthSq_ne_zero_of_offAxis (u : Vector3) (hne : u.x ≠ 0 ∨ u.z ≠ 0) :
    u.lengthSq ≠ 0 := by
  unfold Vector3.lengthSq
  have hx := mul_self_nonneg u.x
  have hy := mul_self_nonneg u.y
  have hz := mul_self_nonneg u.z
  rcases hne with h | h
  · have := mul_self_pos.mpr h
    linarith
  · have := mul_self_pos.mpr h
    linarith

/-- The forward axis that `lookAt` gives when the target is off the vertical
line through the object: the normalised direction from the object to the
target. -/
theorem lookAt_offAxis_forward (M : MathEnv) (p t : Vector3)
    (hne : t.x ≠ p.x ∨ t.z ≠ p.z) :
    (Matrix4.lookAt M t p ⟨0, 1, 0⟩).zAxis = (t.sub p).normalize M := by
  have hu : (t.sub p).x ≠ 0 ∨ (t.sub p).z ≠ 0 := by
    rcases hne with h | h
    · exact Or.inl (sub_ne_zero.mpr h)
    · exact Or.inr (sub_ne_zero.mpr h)
  have hz : t.sub p = if (t.sub p).lengthSq = 0 then { t.sub p with z := 1 }
      else t.sub p := by
    rw [if_neg (lengthSq_ne_zero_of_offAxis _ hu)]
  rw [lookAt_regular M t p ⟨0, 1, 0⟩ (t.sub p) hz (up_cross_lengthSq_ne_zero M _ hu)]

/-- The forward axis that `lookAt` gives when the target is straight above or
below the object: the vertical direction, nudged by `0.0001` along `z` and
normalised again. -/
theorem lookAt_vertical_axis (M : MathEnv) (p t : Vector3)
    (hx : t.x = p.x) (hz : t.z = p.z) (hy : t.y ≠ p.y) :
    ∃ k3 : ℚ, k3 ≠ 0 ∧ ((∀ q, 0 ≤ q → 0 ≤ M.sqrt q) → 0 < k3) ∧
      (Matrix4.lookAt M t p ⟨0, 1, 0⟩).zAxis
        = ⟨0, (t.sub p).y * (t.sub p).normFactor M * k3, 1 / 10000 * k3⟩ := by
  have hux : (t.sub p).x = 0 := by simp [Vector3.sub, hx]
  have huz : (t.sub p).z = 0 := by simp [Vector3.sub, hz]
  have huy : (t.sub p).y ≠ 0 := sub_ne_zero.mpr hy
  have hl : (t.sub p).lengthSq ≠ 0 := by
    simp only [Vector3.lengthSq, hux, huz]
    have := mul_self_pos.mpr huy
    linarith
  have hc : ((⟨0, 1, 0⟩ : Vector3).cross ((t.sub p).normalize M)).lengthSq = 0 := by
    simp [Vector3.cross, Vector3.lengthSq, normalize_eq, hux, huz]
  have habs : ¬ (|(0 : ℚ)| = 1) := by norm_num
  have hzaxis : (Matrix4.lookAt M t p ⟨0, 1, 0⟩).zAxis
      = ({ (t.sub p).normalize M with z := ((t.sub p).normalize M).z + 1 / 10000 } :
          Vector3).normalize M := by
    simp only [Matrix4.lookAt, if_neg hl, hc, if_true]
    rw [if_neg habs]
  refine ⟨({ (t.sub p).normalize M with z := ((t.sub p).normalize M).z + 1 / 10000 } :
      Vector3).normFactor M, normFactor_ne_zero M _, fun hs => normFactor_pos M _ (hs _
        (add_nonneg (add_nonneg (mul_self_nonneg _) (mul_self_nonneg _)) (mul_self_nonneg _))),
      ?_⟩
  rw [hzaxis, normalize_eq M ({ (t.sub p).normalize M with
    z := ((t.sub p).normalize M).z + 1 / 10000 } : Vector3)]
  generalize ({ (t.sub p).normalize M with z := ((t.sub p).normalize M).z + 1 / 10000 } :
      Vector3).normFactor M = k3
  simp only [normalize_eq, hux, huz, zero_mul, zero_add]

/-- The forward axis `f` that `lookAt` gives an object at `p` for a target
`t ≠ p`, against the direction `u = t - p`, without square roots: `f · u > 0`
and `|f|² |u|² ≤ (f · u)² (1 + 10⁻⁸)`, with `(f · u)² = |f|² |u|²` off the
vertical line.  The square root is taken not to be negative, and exact at the
squared distance when the target is straight above or below (where that squared
distance is the perfect square `(t.y - p.y)²`). -/
theorem lookAt_forward_alignment (M : MathEnv) (p t : Vector3) (hne : t ≠ p)
    (hs : ∀ q, 0 ≤ q → 0 ≤ M.sqrt q)
    (hex : t.x = p.x → t.z = p.z →
      (t.sub p).length M * (t.sub p).length M = (t.sub p).lengthSq) :
    0 < (Matrix4.lookAt M t p ⟨0, 1, 0⟩).zAxis.dot (t.sub p) ∧
    (Matrix4.lookAt M t p ⟨0, 1, 0⟩).zAxis.lengthSq * (t.sub p).lengthSq
      ≤ ((Matrix4.lookAt M t p ⟨0, 1, 0⟩).zAxis.dot (t.sub p)) ^ 2 * (1 + 1 / 100000000) ∧
    ((t.x ≠ p.x ∨ t.z ≠ p.z) →
      ((Matrix4.lookAt M t p ⟨0, 1, 0⟩).zAxis.dot (t.sub p)) ^ 2
        = (Matrix4.lookAt M t p ⟨0, 1, 0⟩).zAxis.lengthSq * (t.sub p).lengthSq) := by
  have hlen_nonneg : 0 ≤ (t.sub p).length M :=
    hs _ (add_nonneg (add_nonneg (mul_self_nonneg _) (mul_self_nonneg _)) (mul_self_nonneg _))
  have hk : 0 < (t.sub p).normFactor M := normFactor_pos M _ hlen_nonneg
  by_cases hoff : t.x ≠ p.x ∨ t.z ≠ p.z
  · have hf := lookAt_offAxis_forward M p t hoff
    have hu : (t.sub p).x ≠ 0 ∨ (t.sub p).z ≠ 0 := by
      rcases hoff with h | h
      · exact Or.inl (sub_ne_zero.mpr h)
      · exact Or.inr (sub_ne_zero.mpr h)
    have hL : 0 < (t.sub p).lengthSq :=
      lt_of_le_of_ne (add_nonneg (add_nonneg (mul_self_nonneg _) (mul_self_nonneg _))
        (mul_self_nonneg _)) (Ne.symm (lengthSq_ne_zero_of_offAxis _ hu))
    rw [hf, normalize_eq]
    generalize (t.sub p).normFactor M = k at hk
    generalize t.sub p = u at hL
    have hdot : (⟨u.x * k, u.y * k, u.z * k⟩ : Vector3).dot u = k * u.lengthSq := by
      simp only [Vector3.dot, Vector3.lengthSq]; ring
    have hsq : (⟨u.x * k, u.y * k, u.z * k⟩ : Vector3).lengthSq = k * k * u.lengthSq := by
      simp only [Vector3.lengthSq]; ring
    rw [hdot, hsq]
    refine ⟨mul_pos hk hL, ?_, fun _ => by ring⟩
    have h0 : 0 ≤ (k * u.lengthSq) ^ 2 := sq_nonneg _
    nlinarith
  · push_neg at hoff
    obtain ⟨hx, hz⟩ := hoff
    have hy : t.y ≠ p.y := by
      intro hy
      apply hne
      cases t; cases p
      simp only [Vector3.mk.injEq]
      exact ⟨hx, hy, hz⟩
    obtain ⟨k3, -, hk3, hf⟩ := lookAt_vertical_axis M p t hx hz hy
    have hk3pos := hk3 hs
    have hexact := hex hx hz
    have hux : (t.sub p).x = 0 := by simp [Vector3.sub, hx]
    have huz : (t.sub p).z = 0 := by simp [Vector3.sub, hz]
    have huy : (t.sub p).y ≠ 0 := sub_ne_zero.mpr hy
    have hLsq : (t.sub p).lengthSq = (t.sub p).y * (t.sub p).y := by
      simp only [Vector3.lengthSq, hux, huz]; ring
    rw [hLsq] at hexact
    have hlen0 : (t.sub p).length M ≠ 0 := by
      intro h0
      rw [h0] at hexact
      have : (t.sub p).y * (t.sub p).y = 0 := by rw [← hexact]; ring
      exact huy (mul_self_eq_zero.mp this)
    have hkdef : (t.sub p).normFactor M = 1 / (t.sub p).length M := by
      rw [Vector3.normFactor, if_neg hlen0]
    have hone : ((t.sub p).y * (t.sub p).normFactor M) ^ 2 = 1 := by
      rw [hkdef]
      field_simp
      rw [pow_two, pow_two, hexact]
    rw [hf, hLsq]
    generalize (t.sub p).normFactor M = k at hk hone
    generalize ht : t.sub p = u at hux huz huy hone
    have hdot : (⟨0, u.y * k * k3, 1 / 10000 * k3⟩ : Vector3).dot u
        = (u.y * u.y) * k * k3 := by
      simp only [Vector3.dot, hux, huz]; ring
    have hsq : (⟨0, u.y * k * k3, 1 / 10000 * k3⟩ : Vector3).lengthSq
        = k3 * k3 * ((u.y * k) ^ 2 + 1 / 100000000) := by
      simp only [Vector3.lengthSq]; ring
    rw [hdot, hsq, hone]
    have hyy : 0 < u.y * u.y := mul_self_pos.mpr huy
    refine ⟨mul_pos (mul_pos hyy hk) hk3pos, ?_, fun h => ?_⟩
    · have e : (u.y * u.y * k * k3) ^ 2 = (u.y * u.y) * k3 * k3 * ((u.y * k) ^ 2) := by ring
      rw [e, hone]
      apply le_of_eq
      ring
    · rcases h with h | h
      · exact absurd hx h
      · exact absurd hz h

/-- C12 (amended). In cylindrical mode the object is turned to the point
`(camera.x, object.y, camera.z)`: the direction from the object to that point
has zero vertical component, and for every camera position the up axis of the
object is a nonzero multiple of world-up (a positive one when the square root is
not negative).  In spherical mode the look-at target is the camera position
exactly, and whenever the camera is not at the position of the object the
forward axis `f` points at the camera: with `u` the direction from the object to
the camera, `f · u > 0` and `|f|² |u|² ≤ (f · u)² (1 + 10⁻⁸)`, that is, the
normalised dot product is positive and within `10⁻⁸` of `1`; off the vertical
line through the object `f` is the normalised `u` and `(f · u)² = |f|² |u|²`,
normalised dot product exactly `1`.  The square root is taken not to be
negative, and exact at the squared distance when the camera is straight above or
below the object. -/
theorem billboard_orientation_spec (M : MathEnv) (v : ARCamView) :
    (∃ B c,
      (v._cylindricalBillboard).object.lookAtTarget
        = some ⟨v.camera.position.x, v.object.position.y, v.camera.position.z⟩ ∧
      ((⟨v.camera.position.x, v.object.position.y, v.camera.position.z⟩ : Vector3).sub
        v.object.position).y = 0 ∧
      (v._cylindricalBillboard).orientation M = some B ∧
      B.yAxis = ⟨0, c, 0⟩ ∧ c ≠ 0 ∧ ((∀ q, 0 ≤ q → 0 ≤ M.sqrt q) → 0 < c)) ∧
    (∃ B,
      (v._sphericalBillboard).object.lookAtTarget = some v.camera.position ∧
      (v._sphericalBillboard).orientation M = some B ∧
      (v.camera.position ≠ v.object.position →
        (∀ q, 0 ≤ q → 0 ≤ M.sqrt q) →
        (v.camera.position.x = v.object.position.x →
          v.camera.position.z = v.object.position.z →
          (v.camera.position.sub v.object.position).length M
            * (v.camera.position.sub v.object.position).length M
            = (v.camera.position.sub v.object.position).lengthSq) →
        0 < B.zAxis.dot (v.camera.position.sub v.object.position) ∧
        B.zAxis.lengthSq * (v.camera.position.sub v.object.position).lengthSq
          ≤ (B.zAxis.dot (v.camera.position.sub v.object.position)) ^ 2
            * (1 + 1 / 100000000) ∧
        ((v.camera.position.x ≠ v.object.position.x ∨
            v.camera.position.z ≠ v.object.position.z) →
          (B.zAxis.dot (v.camera.position.sub v.object.position)) ^ 2
            = B.zAxis.lengthSq * (v.camera.position.sub v.object.position).lengthSq ∧
          B.zAxis = (v.camera.position.sub v.object.position).normalize M))) := by
  constructor
  · obtain ⟨c, hc, hc0, hcpos⟩ := lookAt_level_target M v.object.position
      ⟨v.camera.position.x, v.object.position.y, v.camera.position.z⟩ rfl
    refine ⟨_, c, rfl, ?_, rfl, hc, hc0, hcpos⟩
    simp [Vector3.sub]
  · refine ⟨_, rfl, rfl, fun hne hs hex => ?_⟩
    obtain ⟨h1, h2, h3⟩ :=
      lookAt_forward_alignment M v.object.position v.camera.position hne hs hex
    exact ⟨h1, h2, fun hoff => ⟨h3 hoff,
      lookAt_offAxis_forward M v.object.position v.camera.position hoff⟩⟩

theorem exampleMath_sqrt_nonneg (q : ℚ) (h : 0 ≤ q) : 0 ≤ exampleMath.sqrt q := by
  simp only [exampleMath]
  split_ifs
  · norm_num
  · norm_num
  · norm_num
  · exact h

/-- C12, with the object at `(0, -10, 0)` straight below the camera at the
origin, where the square root of the squared distance `100` is exact: the
forward axis points at the camera within the stated bound; and the up axis in
cylindrical mode is a positive multiple of world-up. -/
theorem billboard_orientation_spec_witness :
    belowCameraView.camera.position ≠ belowCameraView.object.position ∧
    (∀ q, 0 ≤ q → 0 ≤ exampleMath.sqrt q) ∧
    (belowCameraView.camera.position.x = belowCameraView.object.position.x →
      belowCameraView.camera.position.z = belowCameraView.object.position.z →
      (belowCameraView.camera.position.sub belowCameraView.object.position).length exampleMath
        * (belowCameraView.camera.position.sub belowCameraView.object.position).length
            exampleMath
        = (belowCameraView.camera.position.sub belowCameraView.object.position).lengthSq) ∧
    (∃ B c, (belowCameraView._cylindricalBillboard).orientation exampleMath = some B ∧
      B.yAxis = ⟨0, c, 0⟩ ∧ 0 < c) ∧
    (∃ B, (belowCameraView._sphericalBillboard).orientation exampleMath = some B ∧
      0 < B.zAxis.dot (belowCameraView.camera.position.sub belowCameraView.object.position) ∧
      B.zAxis.lengthSq
          * (belowCameraView.camera.position.sub belowCameraView.object.position).lengthSq
        ≤ (B.zAxis.dot (belowCameraView.camera.position.sub
            belowCameraView.object.position)) ^ 2 * (1 + 1 / 100000000)) := by
  have hne : belowCameraView.camera.position ≠ belowCameraView.object.position := by
    intro h
    have hy := congrArg Vector3.y h
    norm_num [belowCameraView, ARCamView.new] at hy
  have hex : belowCameraView.camera.position.x = belowCameraView.object.position.x →
      belowCameraView.camera.position.z = belowCameraView.object.position.z →
      (belowCameraView.camera.position.sub belowCameraView.object.position).length exampleMath
        * (belowCameraView.camera.position.sub belowCameraView.object.position).length
            exampleMath
        = (belowCameraView.camera.position.sub belowCameraView.object.position).lengthSq := by
    intro _ _
    norm_num [belowCameraView, ARCamView.new, Vector3.sub, Vector3.length, Vector3.lengthSq,
      exampleMath]
  obtain ⟨⟨B, c, -, -, hB, hy, -, hpos⟩, ⟨B2, -, hB2, hsph⟩⟩ :=
    billboard_orientation_spec exampleMath belowCameraView
  obtain ⟨h1, h2, -⟩ := hsph hne exampleMath_sqrt_nonneg hex
  exact ⟨hne, exampleMath_sqrt_nonneg, hex, ⟨B, c, hB, hy, hpos exampleMath_sqrt_nonneg⟩,
    ⟨B2, hB2, h1, h2⟩⟩

/-- C12 fails as stated in spherical mode when the camera is at the position of
the object.  With the object at the origin, where the camera starts, the
look-at target is the position of the object; `lookAt` then takes the forward
axis `(0, 0, 1)`, while the direction from the object to the camera is the zero
vector: the dot product with it, normalised or not, is `0`. -/
theorem spherical_coincident_counterexample :
    atCameraView.camera.position = atCameraView.object.position ∧
    ∃ B, (atCameraView._sphericalBillboard).object.lookAtTarget
        = some atCameraView.camera.position ∧
      (atCameraView._sphericalBillboard).orientation exampleMath = some B ∧
      B.zAxis = ⟨0, 0, 1⟩ ∧
      atCameraView.camera.position.sub atCameraView.object.position = ⟨0, 0, 0⟩ ∧
      B.zAxis.dot (atCameraView.camera.position.sub atCameraView.object.position) = 0 ∧
      B.zAxis.dot ((atCameraView.camera.position.sub
        atCameraView.object.position).normalize exampleMath) = 0 := by
  have hu : atCameraView.camera.position.sub atCameraView.object.position = ⟨0, 0, 0⟩ := by
    norm_num [atCameraView, ARCamView.new, Vector3.sub]
  refine ⟨rfl, _, rfl, rfl, ?_, hu, ?_, ?_⟩
  · show (Matrix4.lookAt exampleMath atCameraView.camera.position
      atCameraView.object.position ⟨0, 1, 0⟩).zAxis = ⟨0, 0, 1⟩
    norm_num [Matrix4.lookAt, Vector3.sub, Vector3.lengthSq, Vector3.normalize,
      Vector3.length, Vector3.cross, exampleMath, atCameraView, ARCamView.new]
  · rw [hu]
    simp [Vector3.dot]
  · rw [hu]
    simp [Vector3.dot, normalize_eq]

end ARTestWeb
